import Mathlib

/-!
# Verification of the confHide confidential order-matching core

Shallow embedding of `src/encrypted-ixs/src/lib.rs` (the `circuits` module):
the `Order`, `OrderBook`, `Trade`, `MatchResult` data types and the
operations `add_buy_order`, `add_sell_order`, `cancel_order`,
`compact_orders` and `match_orders`.

Conventions of the embedding:
* Rust fixed arrays `[Order; 10]` become `List Order` of length 10
  (well-formedness carries the length); reads are `List.getD` and writes
  are `List.set`, both mirroring in-bounds array indexing.
* `u8`/`u64` counters are `Nat`; every mutation of them in the source is
  guarded so it cannot overflow or underflow, and the guard is reproduced.
* The `u128` counter `next_order_id` is a `Nat` reduced `% 2^128` at its
  single increment site, mirroring wrapping `u128` arithmetic.
* The `for i in 0..10` loops are `List.foldl` over `List.range 10`, with
  the loop body translated literally (same guards, same order of writes).
-/

/-- Wrap-around modulus of the `u128` type of `next_order_id`. -/
def U128 : Nat := 2 ^ 128

/-- `struct Order` from the source: a resting order. -/
structure Order where
  order_id : Nat
  price : Nat
  quantity : Nat
  side : Bool
  trader_id : Nat
  timestamp : Nat
  deriving Repr, DecidableEq

/-- `Order::new()`: the all-zero order used to fill unused slots. -/
def Order.new : Order :=
  { order_id := 0, price := 0, quantity := 0, side := false,
    trader_id := 0, timestamp := 0 }

/-- `struct OrderBook` from the source. -/
structure OrderBook where
  buy_orders : List Order
  buy_count : Nat
  sell_orders : List Order
  sell_count : Nat
  next_order_id : Nat
  deriving Repr, DecidableEq

/-- `OrderBook::new()`: the empty book produced by `init_order_book`. -/
def OrderBook.new : OrderBook :=
  { buy_orders := List.replicate 10 Order.new, buy_count := 0,
    sell_orders := List.replicate 10 Order.new, sell_count := 0,
    next_order_id := 1 }

/-- `struct Trade` from the source. -/
structure Trade where
  buyer_id : Nat
  seller_id : Nat
  price : Nat
  quantity : Nat
  timestamp : Nat
  deriving Repr, DecidableEq

/-- `Trade::new()`. -/
def Trade.new : Trade :=
  { buyer_id := 0, seller_id := 0, price := 0, quantity := 0, timestamp := 0 }

/-- `struct MatchResult` from the source. -/
structure MatchResult where
  trades : List Trade
  trade_count : Nat
  order_book : OrderBook
  deriving Repr, DecidableEq

/-- `OrderBook::add_buy_order`: succeeds iff `buy_count < 10`; on success the
incoming order's `order_id` is overwritten with `next_order_id`, the counter
is incremented (wrapping `u128`), the order is stored at index `buy_count`
and the count incremented. -/
def OrderBook.add_buy_order (b : OrderBook) (order : Order) : OrderBook × Bool :=
  let can_add := decide (b.buy_count < 10)
  if can_add then
    ({ b with
        buy_orders := b.buy_orders.set b.buy_count { order with order_id := b.next_order_id },
        buy_count := b.buy_count + 1,
        next_order_id := (b.next_order_id + 1) % U128 }, true)
  else
    (b, false)

/-- `OrderBook::add_sell_order`: the sell-side twin of `add_buy_order`. -/
def OrderBook.add_sell_order (b : OrderBook) (order : Order) : OrderBook × Bool :=
  let can_add := decide (b.sell_count < 10)
  if can_add then
    ({ b with
        sell_orders := b.sell_orders.set b.sell_count { order with order_id := b.next_order_id },
        sell_count := b.sell_count + 1,
        next_order_id := (b.next_order_id + 1) % U128 }, true)
  else
    (b, false)

/-- The `submit_order` instruction body: dispatch on `order.side`
(`true` = buy). -/
def OrderBook.submit_order (b : OrderBook) (order : Order) : OrderBook × Bool :=
  if order.side then b.add_buy_order order else b.add_sell_order order

/-- Does slot `i` of `os` store exactly this `(order_id, trader_id)` pair?
(the comparison performed by `cancel_order` at each slot). -/
def matchesAt (os : List Order) (i oid tid : Nat) : Bool :=
  ((os.getD i Order.new).order_id == oid) && ((os.getD i Order.new).trader_id == tid)

/-- The inner `for j in i..9` shift of `cancel_order`: each slot from `i`
up to 8 receives the contents of the slot to its right (evaluated left to
right on the mutating array, exactly as the source loop does). -/
def shiftFrom (os : List Order) (i : Nat) : List Order :=
  (List.range' i (9 - i)).foldl (fun a j => a.set j (a.getD (j + 1) Order.new)) os

/-- One iteration of a `cancel_order` scan loop over one side: state is
`(orders, count, found)`. -/
def cancelStep (oid tid : Nat) (st : List Order × Nat × Bool) (i : Nat) :
    List Order × Nat × Bool :=
  let os := st.1
  let c := st.2.1
  let f := st.2.2
  let order_exists := decide (i < c)
  let is_target := matchesAt os i oid tid
  if order_exists && is_target && !f then
    (shiftFrom os i, c - 1, true)
  else
    st

/-- One full 10-slot scan of one side (`for i in 0..10` in `cancel_order`). -/
def cancelSide (os : List Order) (c : Nat) (oid tid : Nat) (f : Bool) :
    List Order × Nat × Bool :=
  (List.range 10).foldl (cancelStep oid tid) (os, c, f)

/-- `OrderBook::cancel_order`: scan the buy side, then the sell side with the
`found` flag carried over, returning the updated book and the flag. -/
def OrderBook.cancel_order (b : OrderBook) (oid tid : Nat) : OrderBook × Bool :=
  let r1 := cancelSide b.buy_orders b.buy_count oid tid false
  let r2 := cancelSide b.sell_orders b.sell_count oid tid r1.2.2
  ({ b with
      buy_orders := r1.1, buy_count := r1.2.1,
      sell_orders := r2.1, sell_count := r2.2.1 }, r2.2.2)

/-- One iteration of a compaction pass (`for read_idx in 0..10` in
`compact_orders`): state is `(orders, write_idx)`. -/
def compactStep (c : Nat) (filled : List Bool) (st : List Order × Nat) (read_idx : Nat) :
    List Order × Nat :=
  let os := st.1
  let w := st.2
  let should_keep := decide (read_idx < c) && !(filled.getD read_idx false) &&
    decide (0 < (os.getD read_idx Order.new).quantity)
  if should_keep then
    (if w ≠ read_idx then os.set w (os.getD read_idx Order.new) else os, w + 1)
  else
    st

/-- One side of `compact_orders`: returns the compacted array and the new
count (the final write cursor). -/
def compactSide (os : List Order) (c : Nat) (filled : List Bool) : List Order × Nat :=
  (List.range 10).foldl (compactStep c filled) (os, 0)

/-- The first `k` iterations of a compaction pass (proof device: the whole
pass is `compactAux … 10`). -/
def compactAux (os : List Order) (c : Nat) (filled : List Bool) (k : Nat) :
    List Order × Nat :=
  (List.range k).foldl (compactStep c filled) (os, 0)

/-- `compact_orders`: compact both sides of the book. -/
def compact_orders (b : OrderBook) (buy_filled sell_filled : List Bool) : OrderBook :=
  let rb := compactSide b.buy_orders b.buy_count buy_filled
  let rs := compactSide b.sell_orders b.sell_count sell_filled
  { b with
      buy_orders := rb.1, buy_count := rb.2,
      sell_orders := rs.1, sell_count := rs.2 }

/-- The mutable state of `match_orders` during the scan: the book, the trade
array (length 5), the trade count, and the two `filled` flag arrays
(length 10). -/
structure MatchState where
  book : OrderBook
  trades : List Trade
  trade_count : Nat
  buy_filled : List Bool
  sell_filled : List Bool
  deriving Repr, DecidableEq

/-- One iteration of the inner sell scan of `match_orders`; the state also
carries the local `buy_order` variable of the source. -/
def innerStep (ts buy_idx : Nat) (st : MatchState × Order) (sell_idx : Nat) :
    MatchState × Order :=
  let s := st.1
  let buy_order := st.2
  let should_process_sell := decide (sell_idx < s.book.sell_count) &&
    decide (s.trade_count < 5) && decide (0 < buy_order.quantity)
  if should_process_sell then
    let sell_order := s.book.sell_orders.getD sell_idx Order.new
    let sell_is_active := !(s.sell_filled.getD sell_idx false) && decide (0 < sell_order.quantity)
    let prices_match := decide (sell_order.price ≤ buy_order.price)
    if sell_is_active && prices_match then
      let trade_quantity :=
        if buy_order.quantity < sell_order.quantity then buy_order.quantity
        else sell_order.quantity
      let trade_price := sell_order.price
      let tr : Trade :=
        { buyer_id := buy_order.trader_id, seller_id := sell_order.trader_id,
          price := trade_price, quantity := trade_quantity, timestamp := ts }
      let trades2 := s.trades.set s.trade_count tr
      let tc2 := s.trade_count + 1
      let buy2 := { buy_order with quantity := buy_order.quantity - trade_quantity }
      let sell2 := { sell_order with quantity := sell_order.quantity - trade_quantity }
      let bf2 := if buy2.quantity = 0 then s.buy_filled.set buy_idx true else s.buy_filled
      let sf2 := if sell2.quantity = 0 then s.sell_filled.set sell_idx true else s.sell_filled
      let book2 := { s.book with
          buy_orders := s.book.buy_orders.set buy_idx buy2,
          sell_orders := s.book.sell_orders.set sell_idx sell2 }
      ({ book := book2, trades := trades2, trade_count := tc2,
         buy_filled := bf2, sell_filled := sf2 }, buy2)
    else
      st
  else
    st

/-- One iteration of the outer buy scan of `match_orders`. -/
def outerStep (ts : Nat) (s : MatchState) (buy_idx : Nat) : MatchState :=
  let should_process_buy := decide (buy_idx < s.book.buy_count) && decide (s.trade_count < 5)
  if should_process_buy then
    let buy_order := s.book.buy_orders.getD buy_idx Order.new
    let buy_is_active := !(s.buy_filled.getD buy_idx false) && decide (0 < buy_order.quantity)
    if buy_is_active then
      ((List.range 10).foldl (innerStep ts buy_idx) (s, buy_order)).1
    else
      s
  else
    s

/-- The initial `MatchState` of `match_orders` for a given input book. -/
def initMatchState (b : OrderBook) : MatchState :=
  { book := b, trades := List.replicate 5 Trade.new, trade_count := 0,
    buy_filled := List.replicate 10 false, sell_filled := List.replicate 10 false }

/-- `match_orders`: the full matching instruction (the price-time-priority
scan followed by compaction), packaged as a `MatchResult`. -/
def match_orders (b : OrderBook) (ts : Nat) : MatchResult :=
  let s := (List.range 10).foldl (outerStep ts) (initMatchState b)
  { trades := s.trades, trade_count := s.trade_count,
    order_book := compact_orders s.book s.buy_filled s.sell_filled }

/-- Well-formedness of a book: the representation invariants that every
book reachable through the API maintains (array lengths are the Rust array
sizes, counts are in range, `next_order_id` fits in `u128`, and every
active slot has positive remaining quantity). -/
structure WF (b : OrderBook) : Prop where
  buy_len : b.buy_orders.length = 10
  sell_len : b.sell_orders.length = 10
  buy_le : b.buy_count ≤ 10
  sell_le : b.sell_count ≤ 10
  next_lt : b.next_order_id < U128
  buy_pos : ∀ i < b.buy_count, 0 < (b.buy_orders.getD i Order.new).quantity
  sell_pos : ∀ i < b.sell_count, 0 < (b.sell_orders.getD i Order.new).quantity

/-- The keep condition of `compact_orders` for slot `i`, evaluated on the
array contents `os`, the incoming count `c` and the `filled` flags. -/
def keepIdx (os : List Order) (c : Nat) (filled : List Bool) (i : Nat) : Bool :=
  decide (i < c) && !(filled.getD i false) &&
    decide (0 < (os.getD i Order.new).quantity)

/-- The slots a compaction pass keeps, in ascending index order. -/
def keptOrders (os : List Order) (c : Nat) (filled : List Bool) : List Order :=
  ((List.range 10).filter (keepIdx os c filled)).map (fun i => os.getD i Order.new)

/-- `a` is the same order as `b` with possibly smaller remaining quantity:
the only in-place mutation `match_orders` performs. -/
def qLE (a b : Order) : Prop :=
  a.order_id = b.order_id ∧ a.price = b.price ∧ a.side = b.side ∧
  a.trader_id = b.trader_id ∧ a.timestamp = b.timestamp ∧ a.quantity ≤ b.quantity

/-- Book `b₁` is book `b₀` with some active quantities decreased in place:
counts and `next_order_id` agree and the arrays are pointwise `qLE`. -/
def bookDecr (b₁ b₀ : OrderBook) : Prop :=
  b₁.buy_count = b₀.buy_count ∧ b₁.sell_count = b₀.sell_count ∧
  b₁.next_order_id = b₀.next_order_id ∧
  List.Forall₂ qLE b₁.buy_orders b₀.buy_orders ∧
  List.Forall₂ qLE b₁.sell_orders b₀.sell_orders

/-- An operation of the book's external interface. -/
inductive Op where
  | submit (o : Order)
  | cancel (oid tid : Nat)
  | runMatch (ts : Nat)
  deriving Repr, DecidableEq

/-- Apply one interface operation to a book (dropping the reported flag /
trade list, which are not part of the book state). -/
def applyOp (b : OrderBook) : Op → OrderBook
  | Op.submit o => (b.submit_order o).1
  | Op.cancel oid tid => (b.cancel_order oid tid).1
  | Op.runMatch ts => (match_orders b ts).order_book

/-- Apply a sequence of interface operations in order. -/
def applyOps (b : OrderBook) (ops : List Op) : OrderBook :=
  ops.foldl applyOp b

/-- Did this operation insert an order (i.e. is it an accepted submission)? -/
def opAccepted (b : OrderBook) : Op → Bool
  | Op.submit o => (b.submit_order o).2
  | Op.cancel _ _ => false
  | Op.runMatch _ => false

/-- The `order_id`s assigned by the book over a sequence of operations, in
order of assignment (each accepted submission records the `next_order_id`
it consumed). -/
def assignedIds (b : OrderBook) : List Op → List Nat
  | [] => []
  | op :: ops =>
    (if opAccepted b op then [b.next_order_id] else []) ++ assignedIds (applyOp b op) ops

/-- Run a sequence of submissions through `submit_order`, counting how many
were accepted on each side: result is `(book, accepted buys, accepted sells)`. -/
def insertRun (b : OrderBook) (os : List Order) : OrderBook × Nat × Nat :=
  os.foldl
    (fun st o =>
      ((st.1.submit_order o).1,
       st.2.1 + (if (st.1.submit_order o).2 && o.side then 1 else 0),
       st.2.2 + (if (st.1.submit_order o).2 && !o.side then 1 else 0)))
    (b, 0, 0)

/-- One `cancel_order` scan instrumented with an iteration counter: the
counter advances once per loop iteration, whether or not the slot is acted
on. -/
def cancelSideCounted (os : List Order) (c : Nat) (oid tid : Nat) (f : Bool) :
    (List Order × Nat × Bool) × Nat :=
  (List.range 10).foldl (fun p i => (cancelStep oid tid p.1 i, p.2 + 1)) ((os, c, f), 0)

/-- The outer buy scan of `match_orders` instrumented with an iteration
counter. -/
def buyScanCounted (ts : Nat) (s : MatchState) : MatchState × Nat :=
  (List.range 10).foldl (fun p i => (outerStep ts p.1 i, p.2 + 1)) (s, 0)

/-- The inner sell scan of `match_orders` instrumented with an iteration
counter. -/
def sellScanCounted (ts buy_idx : Nat) (st : MatchState × Order) :
    (MatchState × Order) × Nat :=
  (List.range 10).foldl (fun p i => (innerStep ts buy_idx p.1 i, p.2 + 1)) (st, 0)

/-- A compaction pass instrumented with an iteration counter. -/
def compactSideCounted (os : List Order) (c : Nat) (filled : List Bool) :
    (List Order × Nat) × Nat :=
  (List.range 10).foldl (fun p i => (compactStep c filled p.1 i, p.2 + 1)) ((os, 0), 0)

/-- A concrete order for the worked examples (caller-supplied `order_id` 0,
which the book discards anyway). -/
def mkOrder (p q : Nat) (s : Bool) (t : Nat) : Order :=
  { order_id := 0, price := p, quantity := q, side := s, trader_id := t, timestamp := 0 }

/-- The book of the spec's worked example: one buy `{price 100, qty 5}`
(trader 7) and one sell `{price 90, qty 3}` (trader 8), built through
`submit_order` from the empty book. -/
def bookC1 : OrderBook :=
  ((OrderBook.new.submit_order (mkOrder 100 5 true 7)).1.submit_order
    (mkOrder 90 3 false 8)).1

/-- A book with six crossing buy/sell pairs (all prices 100, quantity 1),
built through `submit_order` from the empty book: more crossings than the
per-invocation trade cap of 5. -/
def book6 : OrderBook :=
  (List.range 6).foldl
    (fun b k => ((b.submit_order (mkOrder 100 1 true (k + 1))).1.submit_order
      (mkOrder 100 1 false (k + 21))).1)
    OrderBook.new

/-- A book whose best buy price (80) is strictly below its best sell price
(90): no crossing pair. -/
def bookNC : OrderBook :=
  ((OrderBook.new.submit_order (mkOrder 80 5 true 7)).1.submit_order
    (mkOrder 90 3 false 8)).1

/-! ## Generic list lemmas used by the development -/

theorem foldl_fixed_of {α β : Type} (f : β → α → β) (P : β → Prop) :
    ∀ (l : List α) (s : β), P s → (∀ b a, a ∈ l → P b → f b a = b) → l.foldl f s = s
  | [], _, _, _ => rfl
  | a :: l, s, hs, h => by
    rw [List.foldl_cons, h s a (by simp) hs]
    exact foldl_fixed_of f P l s hs (fun b a' ha' hb => h b a' (by simp [ha']) hb)

theorem foldl_inv {α β : Type} (f : β → α → β) (P : β → Prop) :
    ∀ (l : List α) (s : β), P s → (∀ b a, a ∈ l → P b → P (f b a)) → P (l.foldl f s)
  | [], _, hs, _ => hs
  | a :: l, s, hs, h =>
    foldl_inv f P l (f s a) (h s a (by simp) hs)
      (fun b a' ha' hb => h b a' (by simp [ha']) hb)

theorem foldl_count {α β : Type} (f : β → α → β) :
    ∀ (l : List α) (s : β) (n : Nat),
      l.foldl (fun p a => (f p.1 a, p.2 + 1)) (s, n) = (l.foldl f s, n + l.length)
  | [], _, _ => rfl
  | a :: l, s, n => by
    rw [List.foldl_cons, List.foldl_cons, foldl_count f l (f s a) (n + 1)]
    simp [Nat.add_comm, Nat.add_assoc, Nat.add_left_comm]

theorem getD_set_self {α : Type} (l : List α) (i : Nat) (a d : α) (h : i < l.length) :
    (l.set i a).getD i d = a := by
  simp [List.getD_eq_getElem?_getD, List.getElem?_set_self, h]

theorem getD_set_ne {α : Type} (l : List α) (i j : Nat) (a d : α) (h : i ≠ j) :
    (l.set i a).getD j d = l.getD j d := by
  simp [List.getD_eq_getElem?_getD, List.getElem?_set_ne h]

theorem getD_lt_length {α : Type} (l : List α) (i : Nat) (d : α) (h : l.length ≤ i) :
    l.getD i d = d := by
  simp [List.getD_eq_getElem?_getD, List.getElem?_eq_none h]

theorem getD_take_lt {α : Type} (l : List α) (n j : Nat) (d : α) (h : j < n) :
    (l.take n).getD j d = l.getD j d := by
  simp [List.getD_eq_getElem?_getD, List.getElem?_take, h]

theorem getD_append_left {α : Type} (l₁ l₂ : List α) (j : Nat) (d : α) (h : j < l₁.length) :
    (l₁ ++ l₂).getD j d = l₁.getD j d := by
  simp [List.getD_eq_getElem?_getD, List.getElem?_append, h]

theorem getD_append_right {α : Type} (l₁ l₂ : List α) (j : Nat) (d : α) (h : l₁.length ≤ j) :
    (l₁ ++ l₂).getD j d = l₂.getD (j - l₁.length) d := by
  simp [List.getD_eq_getElem?_getD, List.getElem?_append, Nat.not_lt.mpr h]

theorem getD_drop {α : Type} (l : List α) (m j : Nat) (d : α) :
    (l.drop m).getD j d = l.getD (m + j) d := by
  simp [List.getD_eq_getElem?_getD, List.getElem?_drop]

theorem eq_of_getD {α : Type} (d : α) :
    ∀ (l₁ l₂ : List α), l₁.length = l₂.length →
      (∀ j, l₁.getD j d = l₂.getD j d) → l₁ = l₂
  | [], [], _, _ => rfl
  | a :: l₁, b :: l₂, hl, h => by
    have h0 := h 0
    simp [List.getD] at h0
    have := eq_of_getD d l₁ l₂ (by simpa using hl) (fun j => by simpa [List.getD] using h (j + 1))
    simp [h0, this]

theorem range_split (n m : Nat) (h : m ≤ n) :
    List.range n = List.range m ++ List.range' m (n - m) := by
  obtain ⟨k, rfl⟩ : ∃ k, n = m + k := ⟨n - m, (Nat.add_sub_cancel' h).symm⟩
  rw [Nat.add_sub_cancel_left, List.range_eq_range', Nat.add_comm m k,
    ← List.range'_append_1 0 m k, ← List.range_eq_range']
  simp

/-! ## The left-shift loop of `cancel_order` -/

theorem shift_fold_spec :
    ∀ (n i : Nat) (os : List Order), i + n ≤ os.length →
      ((List.range' i n).foldl (fun a j => a.set j (a.getD (j + 1) Order.new)) os).length
          = os.length ∧
      (∀ j, j < i →
        ((List.range' i n).foldl (fun a j => a.set j (a.getD (j + 1) Order.new)) os).getD j
          Order.new = os.getD j Order.new) ∧
      (∀ j, i ≤ j → j < i + n →
        ((List.range' i n).foldl (fun a j => a.set j (a.getD (j + 1) Order.new)) os).getD j
          Order.new = os.getD (j + 1) Order.new) ∧
      (∀ j, i + n ≤ j →
        ((List.range' i n).foldl (fun a j => a.set j (a.getD (j + 1) Order.new)) os).getD j
          Order.new = os.getD j Order.new)
  | 0, i, os, _ => by
    refine ⟨rfl, fun j _ => rfl, fun j h1 h2 => absurd (lt_of_le_of_lt h1 h2) (by omega),
      fun j _ => rfl⟩
  | n + 1, i, os, h => by
    have hi : i < os.length := by omega
    have hlen1 : (os.set i (os.getD (i + 1) Order.new)).length = os.length := by
      simp
    have ih := shift_fold_spec n (i + 1) (os.set i (os.getD (i + 1) Order.new)) (by omega)
    rw [List.range'_succ, List.foldl_cons]
    obtain ⟨ihl, ih1, ih2, ih3⟩ := ih
    refine ⟨by rw [ihl, hlen1], ?_, ?_, ?_⟩
    · intro j hj
      rw [ih1 j (by omega), getD_set_ne _ _ _ _ _ (by omega)]
    · intro j hj1 hj2
      rcases Nat.eq_or_lt_of_le hj1 with hj | hj
      · have hj' : j = i := hj.symm
        subst hj'
        rw [ih1 j (by omega), getD_set_self _ _ _ _ hi]
      · rw [ih2 j (by omega) (by omega), getD_set_ne _ _ _ _ _ (by omega)]
    · intro j hj
      rw [ih3 j (by omega), getD_set_ne _ _ _ _ _ (by omega)]

theorem shiftFrom_len (os : List Order) (i : Nat) (hi : i ≤ 9) (hlen : 9 ≤ os.length) :
    (shiftFrom os i).length = os.length :=
  (shift_fold_spec (9 - i) i os (by omega)).1

theorem shiftFrom_lt (os : List Order) (i j : Nat) (hi : i ≤ 9) (hlen : 9 ≤ os.length)
    (hj : j < i) : (shiftFrom os i).getD j Order.new = os.getD j Order.new :=
  (shift_fold_spec (9 - i) i os (by omega)).2.1 j hj

theorem shiftFrom_mid (os : List Order) (i j : Nat) (hi : i ≤ 9) (hlen : 9 ≤ os.length)
    (hj1 : i ≤ j) (hj2 : j < 9) :
    (shiftFrom os i).getD j Order.new = os.getD (j + 1) Order.new :=
  (shift_fold_spec (9 - i) i os (by omega)).2.2.1 j hj1 (by omega)

theorem shiftFrom_ge (os : List Order) (i j : Nat) (hi : i ≤ 9) (hlen : 9 ≤ os.length)
    (hj : 9 ≤ j) : (shiftFrom os i).getD j Order.new = os.getD j Order.new :=
  (shift_fold_spec (9 - i) i os (by omega)).2.2.2 j (by omega)

/-! ## Characterization of one `cancel_order` scan -/

theorem cancelSide_no_match (os : List Order) (c oid tid : Nat)
    (h : ∀ i, i < c → matchesAt os i oid tid = false) :
    cancelSide os c oid tid false = (os, c, false) := by
  apply foldl_fixed_of _ (fun st => st = (os, c, false)) _ _ rfl
  rintro b i _ rfl
  by_cases hic : i < c
  · simp [cancelStep, h i hic]
  · simp [cancelStep, hic]

theorem cancelSide_already_found (os : List Order) (c oid tid : Nat) :
    cancelSide os c oid tid true = (os, c, true) := by
  apply foldl_fixed_of _ (fun st => st = (os, c, true)) _ _ rfl
  rintro b i _ rfl
  simp [cancelStep]

theorem cancelSide_found (os : List Order) (c oid tid i₀ : Nat)
    (hc : c ≤ 10) (hi₀ : i₀ < c)
    (hm : matchesAt os i₀ oid tid = true)
    (hleast : ∀ j, j < i₀ → matchesAt os j oid tid = false) :
    cancelSide os c oid tid false = (shiftFrom os i₀, c - 1, true) := by
  have hi10 : i₀ < 10 := lt_of_lt_of_le hi₀ hc
  unfold cancelSide
  rw [range_split 10 i₀ (le_of_lt hi10), List.foldl_append]
  have hpre : (List.range i₀).foldl (cancelStep oid tid) (os, c, false) = (os, c, false) := by
    apply foldl_fixed_of _ (fun st => st = (os, c, false)) _ _ rfl
    rintro b j hj rfl
    simp [cancelStep, hleast j (List.mem_range.mp hj)]
  rw [hpre]
  have h10 : 10 - i₀ = (10 - i₀ - 1) + 1 := by omega
  rw [h10, List.range'_succ, List.foldl_cons]
  have hstep : cancelStep oid tid (os, c, false) i₀ = (shiftFrom os i₀, c - 1, true) := by
    simp [cancelStep, hi₀, hm]
  rw [hstep]
  apply foldl_fixed_of _ (fun st => st = (shiftFrom os i₀, c - 1, true)) _ _ rfl
  rintro b j _ rfl
  simp [cancelStep]

/-! ## Characterization of one compaction pass -/

theorem take_succ_getD {α : Type} (l : List α) (n : Nat) (d : α) (h : n < l.length) :
    l.take (n + 1) = l.take n ++ [l.getD n d] := by
  rw [List.take_succ, List.getElem?_eq_getElem h]
  simp [List.getD_eq_getElem?_getD, List.getElem?_eq_getElem h]

theorem take_eq_take_getD {α : Type} (l₁ l₂ : List α) (n : Nat) (d : α)
    (h₁ : n ≤ l₁.length) (h₂ : n ≤ l₂.length)
    (h : ∀ j, j < n → l₁.getD j d = l₂.getD j d) : l₁.take n = l₂.take n := by
  apply eq_of_getD d
  · simp [List.length_take, Nat.min_eq_left h₁, Nat.min_eq_left h₂]
  · intro j
    by_cases hj : j < n
    · rw [getD_take_lt _ _ _ _ hj, getD_take_lt _ _ _ _ hj, h j hj]
    · rw [getD_lt_length _ _ _ (by simp [List.length_take]; omega),
        getD_lt_length _ _ _ (by simp [List.length_take]; omega)]

theorem compactStep_keep (c : Nat) (filled : List Bool) (os : List Order) (w k : Nat)
    (hcond : (decide (k < c) && !(filled.getD k false) &&
      decide (0 < (os.getD k Order.new).quantity)) = true) :
    compactStep c filled (os, w) k
      = (if w ≠ k then os.set w (os.getD k Order.new) else os, w + 1) := by
  unfold compactStep
  simp only [hcond, if_true]

theorem compactStep_skip (c : Nat) (filled : List Bool) (os : List Order) (w k : Nat)
    (hcond : (decide (k < c) && !(filled.getD k false) &&
      decide (0 < (os.getD k Order.new).quantity)) = false) :
    compactStep c filled (os, w) k = (os, w) := by
  unfold compactStep
  simp only [hcond, if_false, Bool.false_eq_true]

theorem compactAux_succ (os : List Order) (c : Nat) (filled : List Bool) (k : Nat) :
    compactAux os c filled (k + 1) = compactStep c filled (compactAux os c filled k) k := by
  unfold compactAux
  rw [List.range_succ, List.foldl_append, List.foldl_cons, List.foldl_nil]

theorem compactAux_spec (os : List Order) (c : Nat) (filled : List Bool) :
    ∀ k : Nat,
      (compactAux os c filled k).1.length = os.length ∧
      (compactAux os c filled k).2 = ((List.range k).filter (keepIdx os c filled)).length ∧
      (compactAux os c filled k).2 ≤ k ∧
      (compactAux os c filled k).2 ≤ c ∧
      (∀ j, (compactAux os c filled k).2 ≤ j →
        (compactAux os c filled k).1.getD j Order.new = os.getD j Order.new) ∧
      (compactAux os c filled k).1.take (compactAux os c filled k).2
        = ((List.range k).filter (keepIdx os c filled)).map (fun i => os.getD i Order.new)
  | 0 => by
    refine ⟨rfl, rfl, le_refl _, Nat.zero_le _, fun j _ => rfl, rfl⟩
  | k + 1 => by
    obtain ⟨ih1, ih2, ih3, ih4, ih5, ih6⟩ := compactAux_spec os c filled k
    have hsucc := compactAux_succ os c filled k
    rcases hp : compactAux os c filled k with ⟨osk, w⟩
    rw [hp] at ih1 ih2 ih3 ih4 ih5 ih6 hsucc
    simp only at ih1 ih2 ih3 ih4 ih5 ih6
    have hread : osk.getD k Order.new = os.getD k Order.new := ih5 k ih3
    have hfilters : (List.range (k + 1)).filter (keepIdx os c filled)
        = (List.range k).filter (keepIdx os c filled)
          ++ if keepIdx os c filled k then [k] else [] := by
      rw [List.range_succ, List.filter_append]
      cases hk : keepIdx os c filled k <;> simp [List.filter_cons, hk]
    by_cases hkeep : keepIdx os c filled k = true
    · have hkeep2 := hkeep
      unfold keepIdx at hkeep2
      simp only [Bool.and_eq_true, decide_eq_true_eq] at hkeep2
      have hkc : k < c := hkeep2.1.1
      have hkq : 0 < (os.getD k Order.new).quantity := hkeep2.2
      have hklen : k < os.length := by
        by_contra hcon
        rw [getD_lt_length os k Order.new (Nat.not_lt.mp hcon)] at hkq
        simp [Order.new] at hkq
      have hwlt : w < os.length := lt_of_le_of_lt ih3 hklen
      have hcond : (decide (k < c) && !(filled.getD k false) &&
          decide (0 < (osk.getD k Order.new).quantity)) = true := by
        rw [hread]
        exact hkeep
      by_cases hwk : w = k
      · have hstep : compactAux os c filled (k + 1) = (osk, w + 1) := by
          rw [hsucc, compactStep_keep c filled osk w k hcond]
          simp [hwk]
        rw [hstep, hfilters]
        refine ⟨ih1, ?_, by omega, by omega, ?_, ?_⟩
        · simp [hkeep, ih2]
        · intro j hj
          have hj2 : w + 1 ≤ j := hj
          exact ih5 j (by omega)
        · show osk.take (w + 1) = _
          rw [take_succ_getD osk w Order.new (by rw [ih1]; exact hwlt)]
          simp only [hkeep, if_true, List.map_append, List.map_cons, List.map_nil]
          rw [ih6]
          congr 2
          rw [hwk, hread]
      · have hstep : compactAux os c filled (k + 1)
            = (osk.set w (osk.getD k Order.new), w + 1) := by
          rw [hsucc, compactStep_keep c filled osk w k hcond]
          simp [hwk]
        have hlen2 : (osk.set w (osk.getD k Order.new)).length = os.length := by
          simp [ih1]
        rw [hstep, hfilters]
        refine ⟨hlen2, ?_, by omega, by omega, ?_, ?_⟩
        · simp [hkeep, ih2]
        · intro j hj
          have hj2 : w + 1 ≤ j := hj
          show (osk.set w (osk.getD k Order.new)).getD j Order.new = _
          rw [getD_set_ne _ _ _ _ _ (by omega)]
          exact ih5 j (by omega)
        · show (osk.set w (osk.getD k Order.new)).take (w + 1) = _
          rw [take_succ_getD (osk.set w (osk.getD k Order.new)) w Order.new
            (by rw [hlen2]; exact hwlt)]
          simp only [hkeep, if_true, List.map_append, List.map_cons, List.map_nil]
          congr 1
          · rw [take_eq_take_getD (osk.set w (osk.getD k Order.new)) osk w Order.new
              (by rw [hlen2]; omega) (by rw [ih1]; omega)
              (fun j hj => getD_set_ne _ _ _ _ _ (by omega))]
            exact ih6
          · rw [getD_set_self _ _ _ _ (by rw [ih1]; exact hwlt), hread]
    · have hkeepF : keepIdx os c filled k = false := by
        cases hk : keepIdx os c filled k
        · rfl
        · exact absurd hk hkeep
      have hcond : (decide (k < c) && !(filled.getD k false) &&
          decide (0 < (osk.getD k Order.new).quantity)) = false := by
        rw [hread]
        exact hkeepF
      have hstep : compactAux os c filled (k + 1) = (osk, w) := by
        rw [hsucc, compactStep_skip c filled osk w k hcond]
      rw [hstep, hfilters]
      simp only [hkeepF, Bool.false_eq_true, if_false, List.append_nil]
      exact ⟨ih1, ih2, by omega, ih4, ih5, ih6⟩

theorem getD_eq_getElem {α : Type} (l : List α) (i : Nat) (d : α) (h : i < l.length) :
    l.getD i d = l[i] := by
  simp [List.getD_eq_getElem?_getD, List.getElem?_eq_getElem h]

theorem compactSide_is_aux (os : List Order) (c : Nat) (filled : List Bool) :
    compactSide os c filled = compactAux os c filled 10 := rfl

theorem compactSide_len (os : List Order) (c : Nat) (filled : List Bool) :
    (compactSide os c filled).1.length = os.length :=
  (compactAux_spec os c filled 10).1

theorem compactSide_count (os : List Order) (c : Nat) (filled : List Bool) :
    (compactSide os c filled).2 = (keptOrders os c filled).length := by
  rw [compactSide_is_aux, (compactAux_spec os c filled 10).2.1]
  unfold keptOrders
  rw [List.length_map]

theorem compactSide_count_le (os : List Order) (c : Nat) (filled : List Bool) :
    (compactSide os c filled).2 ≤ c :=
  (compactAux_spec os c filled 10).2.2.2.1

theorem compactSide_tail (os : List Order) (c : Nat) (filled : List Bool) :
    ∀ j, (compactSide os c filled).2 ≤ j →
      (compactSide os c filled).1.getD j Order.new = os.getD j Order.new :=
  (compactAux_spec os c filled 10).2.2.2.2.1

theorem compactSide_take (os : List Order) (c : Nat) (filled : List Bool) :
    (compactSide os c filled).1.take (compactSide os c filled).2
      = keptOrders os c filled :=
  (compactAux_spec os c filled 10).2.2.2.2.2

theorem filter_map_getD (p : Order → Bool) :
    ∀ (c : Nat) (l : List Order), c ≤ l.length →
      ((List.range c).filter (fun i => p (l.getD i Order.new))).map
          (fun i => l.getD i Order.new)
        = (l.take c).filter p
  | 0, l, _ => rfl
  | c + 1, l, h => by
    rw [List.range_succ, List.filter_append, List.map_append,
      take_succ_getD l c Order.new (by omega), List.filter_append,
      filter_map_getD p c l (by omega)]
    rw [List.getD_eq_getElem?_getD] at *
    cases hp : p (l[c]?.getD Order.new) <;> simp [List.filter_cons, hp]

theorem keptOrders_eq_filter (os : List Order) (c : Nat) (filled : List Bool)
    (hlen : os.length = 10) (hc : c ≤ 10)
    (hfill : ∀ i, i < c → filled.getD i false = true → (os.getD i Order.new).quantity = 0) :
    keptOrders os c filled = (os.take c).filter (fun o => decide (0 < o.quantity)) := by
  unfold keptOrders
  rw [range_split 10 c hc, List.filter_append]
  have h2 : (List.range' c (10 - c)).filter (keepIdx os c filled) = [] := by
    rw [List.filter_eq_nil_iff]
    intro i hi
    have hci : c ≤ i := (List.mem_range'_1.mp hi).1
    unfold keepIdx
    simp [Nat.not_lt.mpr hci]
  rw [h2, List.append_nil]
  have h3 : (List.range c).filter (keepIdx os c filled)
      = (List.range c).filter (fun i => decide (0 < (os.getD i Order.new).quantity)) := by
    apply List.filter_congr
    intro i hi
    have hic : i < c := List.mem_range.mp hi
    unfold keepIdx
    cases hf : filled.getD i false
    · simp [hic]
    · have hq0 : (os.getD i Order.new).quantity = 0 := hfill i hic hf
      rw [List.getD_eq_getElem?_getD] at hq0
      simp [hic, hq0]
  rw [h3, filter_map_getD (fun o => decide (0 < o.quantity)) c os (by omega)]

theorem compactSide_id (os : List Order) (c : Nat) (filled : List Bool)
    (hlen : os.length = 10) (hc : c ≤ 10)
    (hfill : ∀ i, i < c → filled.getD i false = false)
    (hpos : ∀ i, i < c → 0 < (os.getD i Order.new).quantity) :
    compactSide os c filled = (os, c) := by
  have hkf : keptOrders os c filled = os.take c := by
    rw [keptOrders_eq_filter os c filled hlen hc
      (fun i hi hf => by rw [hfill i hi] at hf; simp at hf)]
    apply List.filter_eq_self.mpr
    intro a ha
    obtain ⟨i, hi, hEq⟩ := List.mem_iff_getElem.mp ha
    rw [List.length_take] at hi
    have hic : i < c := by omega
    have : a = os.getD i Order.new := by
      rw [← hEq, ← getD_eq_getElem (os.take c) i Order.new (by rw [List.length_take]; omega),
        getD_take_lt _ _ _ _ hic]
    rw [this]
    exact decide_eq_true (hpos i hic)
  have hcount : (compactSide os c filled).2 = c := by
    rw [compactSide_count, hkf, List.length_take]
    omega
  have harr : (compactSide os c filled).1 = os := by
    apply eq_of_getD Order.new
    · rw [compactSide_len]
    · intro j
      by_cases hj : j < c
      · have htake := compactSide_take os c filled
        rw [hkf, hcount] at htake
        calc (compactSide os c filled).1.getD j Order.new
            = ((compactSide os c filled).1.take c).getD j Order.new :=
              (getD_take_lt _ _ _ _ hj).symm
          _ = (os.take c).getD j Order.new := by rw [htake]
          _ = os.getD j Order.new := getD_take_lt _ _ _ _ hj
      · exact compactSide_tail os c filled j (by omega)
  calc compactSide os c filled
      = ((compactSide os c filled).1, (compactSide os c filled).2) := rfl
    _ = (os, c) := by rw [harr, hcount]

theorem cancelSide_active_erase (os : List Order) (c oid tid i₀ : Nat)
    (hlen : os.length = 10) (hc : c ≤ 10) (hi₀ : i₀ < c)
    (hm : matchesAt os i₀ oid tid = true)
    (hleast : ∀ j, j < i₀ → matchesAt os j oid tid = false) :
    (cancelSide os c oid tid false).1.take (c - 1) = (os.take c).eraseIdx i₀ := by
  rw [cancelSide_found os c oid tid i₀ hc hi₀ hm hleast]
  have hi9 : i₀ ≤ 9 := by omega
  apply eq_of_getD Order.new
  · rw [List.length_take, shiftFrom_len os i₀ hi9 (by omega), hlen,
      List.length_eraseIdx_of_lt (by rw [List.length_take, hlen]; omega),
      List.length_take, hlen]
    omega
  · intro j
    by_cases hj : j < c - 1
    · rw [getD_take_lt _ _ _ _ hj, List.eraseIdx_eq_take_drop_succ, List.take_take]
      have hmin : min i₀ c = i₀ := by omega
      rw [hmin]
      by_cases hji : j < i₀
      · rw [shiftFrom_lt os i₀ j hi9 (by omega) hji,
          getD_append_left _ _ _ _ (by rw [List.length_take]; omega),
          getD_take_lt _ _ _ _ hji]
      · have hji' : i₀ ≤ j := Nat.not_lt.mp hji
        rw [shiftFrom_mid os i₀ j hi9 (by omega) hji' (by omega),
          getD_append_right _ _ _ _ (by rw [List.length_take]; omega)]
        rw [List.length_take]
        have hidx : min i₀ os.length = i₀ := by omega
        rw [hidx, getD_drop]
        have hidx2 : i₀ + 1 + (j - i₀) = j + 1 := by omega
        rw [hidx2, getD_take_lt _ _ _ _ (by omega)]
    · rw [getD_lt_length _ _ _ (by rw [List.length_take, shiftFrom_len os i₀ hi9 (by omega)]; omega),
        getD_lt_length _ _ _ (by
          rw [List.length_eraseIdx_of_lt (by rw [List.length_take, hlen]; omega),
            List.length_take, hlen]
          omega)]

/-! ## The matching scan: branch lemmas and invariants -/

theorem qLE_refl (a : Order) : qLE a a := ⟨rfl, rfl, rfl, rfl, rfl, le_refl _⟩

theorem qLE_trans {a b c : Order} (h1 : qLE a b) (h2 : qLE b c) : qLE a c :=
  ⟨h1.1.trans h2.1, h1.2.1.trans h2.2.1, h1.2.2.1.trans h2.2.2.1,
   h1.2.2.2.1.trans h2.2.2.2.1, h1.2.2.2.2.1.trans h2.2.2.2.2.1,
   le_trans h1.2.2.2.2.2 h2.2.2.2.2.2⟩

theorem forall₂_qLE_refl : ∀ (l : List Order), List.Forall₂ qLE l l
  | [] => List.Forall₂.nil
  | a :: l => List.Forall₂.cons (qLE_refl a) (forall₂_qLE_refl l)

theorem forall₂_qLE_getD :
    ∀ {l l₀ : List Order}, List.Forall₂ qLE l l₀ → ∀ i, i < l.length →
      qLE (l.getD i Order.new) (l₀.getD i Order.new)
  | _, _, List.Forall₂.cons ha _, 0, _ => ha
  | _, _, List.Forall₂.cons _ hl, i + 1, hi =>
    forall₂_qLE_getD hl i (by simpa using hi)

theorem forall₂_qLE_set :
    ∀ {l l₀ : List Order}, List.Forall₂ qLE l l₀ → ∀ i (a : Order),
      qLE a (l₀.getD i Order.new) → List.Forall₂ qLE (l.set i a) l₀
  | _, _, List.Forall₂.nil, _, _, _ => by simp [List.Forall₂.nil]
  | _, _, List.Forall₂.cons hab hl, 0, a', ha => List.Forall₂.cons ha hl
  | _, _, List.Forall₂.cons hab hl, i + 1, a', ha =>
    List.Forall₂.cons hab (forall₂_qLE_set hl i a' ha)

theorem innerStep_skip1 (ts bi si : Nat) (s : MatchState) (bo : Order)
    (hg : (decide (si < s.book.sell_count) && decide (s.trade_count < 5) &&
      decide (0 < bo.quantity)) = false) :
    innerStep ts bi (s, bo) si = (s, bo) := by
  simp only [innerStep, hg, Bool.false_eq_true, if_false]

theorem innerStep_skip2 (ts bi si : Nat) (s : MatchState) (bo : Order)
    (hg1 : (decide (si < s.book.sell_count) && decide (s.trade_count < 5) &&
      decide (0 < bo.quantity)) = true)
    (hg2 : ((!(s.sell_filled.getD si false) &&
        decide (0 < (s.book.sell_orders.getD si Order.new).quantity)) &&
      decide ((s.book.sell_orders.getD si Order.new).price ≤ bo.price)) = false) :
    innerStep ts bi (s, bo) si = (s, bo) := by
  simp only [innerStep, hg1, hg2, if_true, Bool.false_eq_true, if_false]

theorem innerStep_trade (ts bi si : Nat) (s : MatchState) (bo : Order)
    (hg1 : (decide (si < s.book.sell_count) && decide (s.trade_count < 5) &&
      decide (0 < bo.quantity)) = true)
    (hg2 : ((!(s.sell_filled.getD si false) &&
        decide (0 < (s.book.sell_orders.getD si Order.new).quantity)) &&
      decide ((s.book.sell_orders.getD si Order.new).price ≤ bo.price)) = true) :
    innerStep ts bi (s, bo) si =
      ({ book := { s.book with
            buy_orders := s.book.buy_orders.set bi
              { bo with quantity := bo.quantity -
                  (if bo.quantity < (s.book.sell_orders.getD si Order.new).quantity
                   then bo.quantity else (s.book.sell_orders.getD si Order.new).quantity) },
            sell_orders := s.book.sell_orders.set si
              { s.book.sell_orders.getD si Order.new with
                  quantity := (s.book.sell_orders.getD si Order.new).quantity -
                    (if bo.quantity < (s.book.sell_orders.getD si Order.new).quantity
                     then bo.quantity else (s.book.sell_orders.getD si Order.new).quantity) } },
          trades := s.trades.set s.trade_count
            { buyer_id := bo.trader_id,
              seller_id := (s.book.sell_orders.getD si Order.new).trader_id,
              price := (s.book.sell_orders.getD si Order.new).price,
              quantity := (if bo.quantity < (s.book.sell_orders.getD si Order.new).quantity
                           then bo.quantity else (s.book.sell_orders.getD si Order.new).quantity),
              timestamp := ts },
          trade_count := s.trade_count + 1,
          buy_filled :=
            if bo.quantity -
                (if bo.quantity < (s.book.sell_orders.getD si Order.new).quantity
                 then bo.quantity else (s.book.sell_orders.getD si Order.new).quantity) = 0
            then s.buy_filled.set bi true else s.buy_filled,
          sell_filled :=
            if (s.book.sell_orders.getD si Order.new).quantity -
                (if bo.quantity < (s.book.sell_orders.getD si Order.new).quantity
                 then bo.quantity else (s.book.sell_orders.getD si Order.new).quantity) = 0
            then s.sell_filled.set si true else s.sell_filled },
       { bo with quantity := bo.quantity -
          (if bo.quantity < (s.book.sell_orders.getD si Order.new).quantity
           then bo.quantity else (s.book.sell_orders.getD si Order.new).quantity) }) := by
  simp only [innerStep, hg1, hg2, if_true]

theorem getD_replicate {α : Type} (n i : Nat) (a d : α) (h : i < n) :
    (List.replicate n a).getD i d = a := by
  simp [List.getD_eq_getElem?_getD, List.getElem?_replicate, h]

theorem innerStep_frame (ts bi si : Nat) (s : MatchState) (bo : Order) :
    (innerStep ts bi (s, bo) si).1.book.next_order_id = s.book.next_order_id ∧
    (innerStep ts bi (s, bo) si).1.book.buy_count = s.book.buy_count ∧
    (innerStep ts bi (s, bo) si).1.book.sell_count = s.book.sell_count ∧
    (innerStep ts bi (s, bo) si).1.book.buy_orders.length = s.book.buy_orders.length ∧
    (innerStep ts bi (s, bo) si).1.book.sell_orders.length = s.book.sell_orders.length ∧
    (innerStep ts bi (s, bo) si).1.trades.length = s.trades.length ∧
    (s.trade_count ≤ 5 → (innerStep ts bi (s, bo) si).1.trade_count ≤ 5) := by
  by_cases hg1 : (decide (si < s.book.sell_count) && decide (s.trade_count < 5) &&
      decide (0 < bo.quantity)) = true
  · by_cases hg2 : ((!(s.sell_filled.getD si false) &&
        decide (0 < (s.book.sell_orders.getD si Order.new).quantity)) &&
      decide ((s.book.sell_orders.getD si Order.new).price ≤ bo.price)) = true
    · rw [innerStep_trade ts bi si s bo hg1 hg2]
      have htc : s.trade_count < 5 := by
        simp only [Bool.and_eq_true, decide_eq_true_eq] at hg1
        exact hg1.1.2
      refine ⟨rfl, rfl, rfl, by simp, by simp, by simp, fun _ => ?_⟩
      show s.trade_count + 1 ≤ 5
      omega
    · rw [innerStep_skip2 ts bi si s bo hg1
        (by simp only [Bool.not_eq_true] at hg2; exact hg2)]
      exact ⟨rfl, rfl, rfl, rfl, rfl, rfl, fun h => h⟩
  · rw [innerStep_skip1 ts bi si s bo
      (by simp only [Bool.not_eq_true] at hg1; exact hg1)]
    exact ⟨rfl, rfl, rfl, rfl, rfl, rfl, fun h => h⟩

theorem innerFold_frame (ts bi : Nat) (st : MatchState × Order) :
    ((List.range 10).foldl (innerStep ts bi) st).1.book.next_order_id
        = st.1.book.next_order_id ∧
    ((List.range 10).foldl (innerStep ts bi) st).1.book.buy_count = st.1.book.buy_count ∧
    ((List.range 10).foldl (innerStep ts bi) st).1.book.sell_count = st.1.book.sell_count ∧
    ((List.range 10).foldl (innerStep ts bi) st).1.book.buy_orders.length
        = st.1.book.buy_orders.length ∧
    ((List.range 10).foldl (innerStep ts bi) st).1.book.sell_orders.length
        = st.1.book.sell_orders.length ∧
    ((List.range 10).foldl (innerStep ts bi) st).1.trades.length = st.1.trades.length ∧
    (st.1.trade_count ≤ 5 → ((List.range 10).foldl (innerStep ts bi) st).1.trade_count ≤ 5) := by
  apply foldl_inv (innerStep ts bi)
    (fun p => p.1.book.next_order_id = st.1.book.next_order_id ∧
      p.1.book.buy_count = st.1.book.buy_count ∧
      p.1.book.sell_count = st.1.book.sell_count ∧
      p.1.book.buy_orders.length = st.1.book.buy_orders.length ∧
      p.1.book.sell_orders.length = st.1.book.sell_orders.length ∧
      p.1.trades.length = st.1.trades.length ∧
      (st.1.trade_count ≤ 5 → p.1.trade_count ≤ 5))
    (List.range 10) st
    ⟨rfl, rfl, rfl, rfl, rfl, rfl, fun h => h⟩
  intro p si _ hP
  obtain ⟨e1, e2, e3, e4, e5, e6, e7⟩ := hP
  obtain ⟨f1, f2, f3, f4, f5, f6, f7⟩ := innerStep_frame ts bi si p.1 p.2
  exact ⟨f1.trans e1, f2.trans e2, f3.trans e3, f4.trans e4, f5.trans e5, f6.trans e6,
    fun h => f7 (e7 h)⟩

theorem outerStep_frame (ts : Nat) (s : MatchState) (bi : Nat) :
    (outerStep ts s bi).book.next_order_id = s.book.next_order_id ∧
    (outerStep ts s bi).book.buy_count = s.book.buy_count ∧
    (outerStep ts s bi).book.sell_count = s.book.sell_count ∧
    (outerStep ts s bi).book.buy_orders.length = s.book.buy_orders.length ∧
    (outerStep ts s bi).book.sell_orders.length = s.book.sell_orders.length ∧
    (outerStep ts s bi).trades.length = s.trades.length ∧
    (s.trade_count ≤ 5 → (outerStep ts s bi).trade_count ≤ 5) := by
  unfold outerStep
  by_cases hg : (decide (bi < s.book.buy_count) && decide (s.trade_count < 5)) = true
  · simp only [hg, if_true]
    by_cases ha : (!(s.buy_filled.getD bi false) &&
        decide (0 < (s.book.buy_orders.getD bi Order.new).quantity)) = true
    · simp only [ha, if_true]
      exact innerFold_frame ts bi (s, s.book.buy_orders.getD bi Order.new)
    · simp only [ha, Bool.false_eq_true, if_false]
      simp
  · simp only [hg, Bool.false_eq_true, if_false]
    simp

theorem matchScan_frame (b : OrderBook) (ts : Nat) :
    ((List.range 10).foldl (outerStep ts) (initMatchState b)).book.next_order_id
        = b.next_order_id ∧
    ((List.range 10).foldl (outerStep ts) (initMatchState b)).book.buy_count = b.buy_count ∧
    ((List.range 10).foldl (outerStep ts) (initMatchState b)).book.sell_count = b.sell_count ∧
    ((List.range 10).foldl (outerStep ts) (initMatchState b)).book.buy_orders.length
        = b.buy_orders.length ∧
    ((List.range 10).foldl (outerStep ts) (initMatchState b)).book.sell_orders.length
        = b.sell_orders.length ∧
    ((List.range 10).foldl (outerStep ts) (initMatchState b)).trades.length = 5 ∧
    ((List.range 10).foldl (outerStep ts) (initMatchState b)).trade_count ≤ 5 := by
  have h := foldl_inv (outerStep ts)
    (fun s => s.book.next_order_id = b.next_order_id ∧
      s.book.buy_count = b.buy_count ∧
      s.book.sell_count = b.sell_count ∧
      s.book.buy_orders.length = b.buy_orders.length ∧
      s.book.sell_orders.length = b.sell_orders.length ∧
      s.trades.length = 5 ∧
      s.trade_count ≤ 5)
    (List.range 10) (initMatchState b)
    ⟨rfl, rfl, rfl, rfl, rfl, by simp [initMatchState], by simp [initMatchState]⟩
    (fun s bi _ hP => by
      obtain ⟨e1, e2, e3, e4, e5, e6, e7⟩ := hP
      obtain ⟨f1, f2, f3, f4, f5, f6, f7⟩ := outerStep_frame ts s bi
      exact ⟨f1.trans e1, f2.trans e2, f3.trans e3, f4.trans e4, f5.trans e5, f6.trans e6,
        f7 e7⟩)
  exact h

theorem compact_orders_buys (b : OrderBook) (f1 f2 : List Bool) :
    (compact_orders b f1 f2).buy_orders = (compactSide b.buy_orders b.buy_count f1).1 := rfl

theorem compact_orders_buy_count (b : OrderBook) (f1 f2 : List Bool) :
    (compact_orders b f1 f2).buy_count = (compactSide b.buy_orders b.buy_count f1).2 := rfl

theorem compact_orders_sells (b : OrderBook) (f1 f2 : List Bool) :
    (compact_orders b f1 f2).sell_orders = (compactSide b.sell_orders b.sell_count f2).1 := rfl

theorem compact_orders_sell_count (b : OrderBook) (f1 f2 : List Bool) :
    (compact_orders b f1 f2).sell_count = (compactSide b.sell_orders b.sell_count f2).2 := rfl

theorem compact_orders_next (b : OrderBook) (f1 f2 : List Bool) :
    (compact_orders b f1 f2).next_order_id = b.next_order_id := rfl

theorem match_orders_book_eq (b : OrderBook) (ts : Nat) :
    (match_orders b ts).order_book
      = compact_orders ((List.range 10).foldl (outerStep ts) (initMatchState b)).book
          ((List.range 10).foldl (outerStep ts) (initMatchState b)).buy_filled
          ((List.range 10).foldl (outerStep ts) (initMatchState b)).sell_filled := by
  simp only [match_orders]

theorem match_orders_tc_eq (b : OrderBook) (ts : Nat) :
    (match_orders b ts).trade_count
      = ((List.range 10).foldl (outerStep ts) (initMatchState b)).trade_count := by
  simp only [match_orders]

theorem match_orders_trades_eq (b : OrderBook) (ts : Nat) :
    (match_orders b ts).trades
      = ((List.range 10).foldl (outerStep ts) (initMatchState b)).trades := by
  simp only [match_orders]

theorem match_orders_frame (b : OrderBook) (ts : Nat) :
    (match_orders b ts).order_book.next_order_id = b.next_order_id ∧
    (match_orders b ts).order_book.buy_count ≤ b.buy_count ∧
    (match_orders b ts).order_book.sell_count ≤ b.sell_count ∧
    (match_orders b ts).trade_count ≤ 5 := by
  obtain ⟨e1, e2, e3, e4, e5, e6, e7⟩ := matchScan_frame b ts
  rw [match_orders_book_eq, match_orders_tc_eq, compact_orders_next,
    compact_orders_buy_count, compact_orders_sell_count]
  refine ⟨e1, ?_, ?_, e7⟩
  · rw [← e2]
    exact compactSide_count_le _ _ _
  · rw [← e3]
    exact compactSide_count_le _ _ _

theorem bookDecr_refl (b : OrderBook) : bookDecr b b :=
  ⟨rfl, rfl, rfl, forall₂_qLE_refl _, forall₂_qLE_refl _⟩

theorem innerStep_decr (ts bi si : Nat) (s : MatchState) (bo : Order) (b₀ : OrderBook)
    (hbi : bi < 10) (hsi : si < 10)
    (h1 : s.book.buy_orders.length = 10) (h2 : s.book.sell_orders.length = 10)
    (h5 : bo = s.book.buy_orders.getD bi Order.new)
    (h6 : bookDecr s.book b₀) :
    (innerStep ts bi (s, bo) si).1.book.buy_orders.length = 10 ∧
    (innerStep ts bi (s, bo) si).1.book.sell_orders.length = 10 ∧
    (innerStep ts bi (s, bo) si).2
        = (innerStep ts bi (s, bo) si).1.book.buy_orders.getD bi Order.new ∧
    bookDecr (innerStep ts bi (s, bo) si).1.book b₀ := by
  by_cases hg1 : (decide (si < s.book.sell_count) && decide (s.trade_count < 5) &&
      decide (0 < bo.quantity)) = true
  · by_cases hg2 : ((!(s.sell_filled.getD si false) &&
        decide (0 < (s.book.sell_orders.getD si Order.new).quantity)) &&
      decide ((s.book.sell_orders.getD si Order.new).price ≤ bo.price)) = true
    · rw [innerStep_trade ts bi si s bo hg1 hg2]
      obtain ⟨d1, d2, d3, d4, d5⟩ := h6
      refine ⟨by simpa using h1, by simpa using h2, ?_, ?_⟩
      · show _ = (s.book.buy_orders.set bi _).getD bi Order.new
        rw [getD_set_self _ _ _ _ (by omega)]
      · refine ⟨d1, d2, d3, ?_, ?_⟩
        · show List.Forall₂ qLE (s.book.buy_orders.set bi _) b₀.buy_orders
          apply forall₂_qLE_set d4 bi
          apply qLE_trans _ (forall₂_qLE_getD d4 bi (by omega))
          rw [h5]
          exact ⟨rfl, rfl, rfl, rfl, rfl, by rw [← h5]; exact Nat.sub_le _ _⟩
        · show List.Forall₂ qLE (s.book.sell_orders.set si _) b₀.sell_orders
          apply forall₂_qLE_set d5 si
          apply qLE_trans _ (forall₂_qLE_getD d5 si (by omega))
          exact ⟨rfl, rfl, rfl, rfl, rfl, Nat.sub_le _ _⟩
    · rw [innerStep_skip2 ts bi si s bo hg1
        (by simp only [Bool.not_eq_true] at hg2; exact hg2)]
      exact ⟨h1, h2, h5, h6⟩
  · rw [innerStep_skip1 ts bi si s bo
      (by simp only [Bool.not_eq_true] at hg1; exact hg1)]
    exact ⟨h1, h2, h5, h6⟩

theorem innerFold_decr (ts bi : Nat) (s : MatchState) (bo : Order) (b₀ : OrderBook)
    (hbi : bi < 10)
    (h1 : s.book.buy_orders.length = 10) (h2 : s.book.sell_orders.length = 10)
    (h5 : bo = s.book.buy_orders.getD bi Order.new)
    (h6 : bookDecr s.book b₀) :
    ((List.range 10).foldl (innerStep ts bi) (s, bo)).1.book.buy_orders.length = 10 ∧
    ((List.range 10).foldl (innerStep ts bi) (s, bo)).1.book.sell_orders.length = 10 ∧
    bookDecr ((List.range 10).foldl (innerStep ts bi) (s, bo)).1.book b₀ := by
  have h := foldl_inv (innerStep ts bi)
    (fun p => p.1.book.buy_orders.length = 10 ∧ p.1.book.sell_orders.length = 10 ∧
      p.2 = p.1.book.buy_orders.getD bi Order.new ∧ bookDecr p.1.book b₀)
    (List.range 10) (s, bo) ⟨h1, h2, h5, h6⟩
    (fun p si hsi hP => by
      have hsi10 : si < 10 := List.mem_range.mp hsi
      exact innerStep_decr ts bi si p.1 p.2 b₀ hbi hsi10 hP.1 hP.2.1 hP.2.2.1 hP.2.2.2)
  exact ⟨h.1, h.2.1, h.2.2.2⟩

theorem outerStep_decr (ts : Nat) (s : MatchState) (bi : Nat) (b₀ : OrderBook)
    (hbi : bi < 10)
    (h1 : s.book.buy_orders.length = 10) (h2 : s.book.sell_orders.length = 10)
    (h6 : bookDecr s.book b₀) :
    (outerStep ts s bi).book.buy_orders.length = 10 ∧
    (outerStep ts s bi).book.sell_orders.length = 10 ∧
    bookDecr (outerStep ts s bi).book b₀ := by
  unfold outerStep
  by_cases hg : (decide (bi < s.book.buy_count) && decide (s.trade_count < 5)) = true
  · simp only [hg, if_true]
    by_cases ha : (!(s.buy_filled.getD bi false) &&
        decide (0 < (s.book.buy_orders.getD bi Order.new).quantity)) = true
    · simp only [ha, if_true]
      exact innerFold_decr ts bi s (s.book.buy_orders.getD bi Order.new) b₀ hbi h1 h2 rfl h6
    · simp only [ha, Bool.false_eq_true, if_false]
      exact ⟨h1, h2, h6⟩
  · simp only [hg, Bool.false_eq_true, if_false]
    exact ⟨h1, h2, h6⟩

theorem matchScan_decr (b : OrderBook) (ts : Nat)
    (hb1 : b.buy_orders.length = 10) (hb2 : b.sell_orders.length = 10) :
    ((List.range 10).foldl (outerStep ts) (initMatchState b)).book.buy_orders.length = 10 ∧
    ((List.range 10).foldl (outerStep ts) (initMatchState b)).book.sell_orders.length = 10 ∧
    bookDecr ((List.range 10).foldl (outerStep ts) (initMatchState b)).book b :=
  foldl_inv (outerStep ts)
    (fun s => s.book.buy_orders.length = 10 ∧ s.book.sell_orders.length = 10 ∧
      bookDecr s.book b)
    (List.range 10) (initMatchState b) ⟨hb1, hb2, bookDecr_refl b⟩
    (fun s bi hbi hP =>
      outerStep_decr ts s bi b (List.mem_range.mp hbi) hP.1 hP.2.1 hP.2.2)

theorem initMatchState_book (b : OrderBook) : (initMatchState b).book = b := rfl

theorem initMatchState_trades (b : OrderBook) :
    (initMatchState b).trades = List.replicate 5 Trade.new := rfl

theorem initMatchState_tc (b : OrderBook) : (initMatchState b).trade_count = 0 := rfl

theorem initMatchState_bf (b : OrderBook) :
    (initMatchState b).buy_filled = List.replicate 10 false := rfl

theorem initMatchState_sf (b : OrderBook) :
    (initMatchState b).sell_filled = List.replicate 10 false := rfl

theorem outerStep_skip1 (ts : Nat) (s : MatchState) (bi : Nat)
    (hg : (decide (bi < s.book.buy_count) && decide (s.trade_count < 5)) = false) :
    outerStep ts s bi = s := by
  simp only [outerStep, hg, Bool.false_eq_true, if_false]

theorem outerStep_skip2 (ts : Nat) (s : MatchState) (bi : Nat)
    (hg : (decide (bi < s.book.buy_count) && decide (s.trade_count < 5)) = true)
    (ha : (!(s.buy_filled.getD bi false) &&
      decide (0 < (s.book.buy_orders.getD bi Order.new).quantity)) = false) :
    outerStep ts s bi = s := by
  simp only [outerStep, hg, ha, if_true, Bool.false_eq_true, if_false]

theorem outerStep_eq_inner (ts : Nat) (s : MatchState) (bi : Nat)
    (hg : (decide (bi < s.book.buy_count) && decide (s.trade_count < 5)) = true)
    (ha : (!(s.buy_filled.getD bi false) &&
      decide (0 < (s.book.buy_orders.getD bi Order.new).quantity)) = true) :
    outerStep ts s bi
      = ((List.range 10).foldl (innerStep ts bi)
          (s, s.book.buy_orders.getD bi Order.new)).1 := by
  simp only [outerStep, hg, ha, if_true]

theorem matchScan_no_cross (b : OrderBook) (ts : Nat)
    (hnc : ∀ i j, i < b.buy_count → j < b.sell_count →
      (b.buy_orders.getD i Order.new).price < (b.sell_orders.getD j Order.new).price) :
    (List.range 10).foldl (outerStep ts) (initMatchState b) = initMatchState b := by
  apply foldl_fixed_of _ (fun s => s = initMatchState b) _ _ rfl
  rintro s bi hbi rfl
  by_cases hg : (decide (bi < (initMatchState b).book.buy_count) &&
      decide ((initMatchState b).trade_count < 5)) = true
  case neg =>
    exact outerStep_skip1 ts (initMatchState b) bi
      (by simp only [Bool.not_eq_true] at hg; exact hg)
  case pos =>
  by_cases ha : (!((initMatchState b).buy_filled.getD bi false) &&
      decide (0 < ((initMatchState b).book.buy_orders.getD bi Order.new).quantity)) = true
  case neg =>
    exact outerStep_skip2 ts (initMatchState b) bi hg
      (by simp only [Bool.not_eq_true] at ha; exact ha)
  case pos =>
  rw [outerStep_eq_inner ts (initMatchState b) bi hg ha]
  have hbc : bi < b.buy_count := by
    simp only [Bool.and_eq_true, decide_eq_true_eq] at hg
    exact hg.1
  have hfix : (List.range 10).foldl (innerStep ts bi)
      (initMatchState b, (initMatchState b).book.buy_orders.getD bi Order.new)
      = (initMatchState b, (initMatchState b).book.buy_orders.getD bi Order.new) := by
    apply foldl_fixed_of _
      (fun p => p = (initMatchState b, (initMatchState b).book.buy_orders.getD bi Order.new))
      _ _ rfl
    rintro p si hsi rfl
    by_cases hg1 : (decide (si < (initMatchState b).book.sell_count) &&
        decide ((initMatchState b).trade_count < 5) &&
        decide (0 < ((initMatchState b).book.buy_orders.getD bi Order.new).quantity)) = true
    · apply innerStep_skip2 ts bi si (initMatchState b) _ hg1
      have hsc : si < b.sell_count := by
        simp only [Bool.and_eq_true, decide_eq_true_eq] at hg1
        exact hg1.1.1
      have hlt := hnc bi si hbc hsc
      have hdec : decide (((initMatchState b).book.sell_orders.getD si Order.new).price ≤
          ((initMatchState b).book.buy_orders.getD bi Order.new).price) = false :=
        decide_eq_false (Nat.not_le.mpr hlt)
      rw [hdec, Bool.and_false]
    · exact innerStep_skip1 ts bi si (initMatchState b) _
        (by simp only [Bool.not_eq_true] at hg1; exact hg1)
  rw [hfix]

theorem compact_orders_id (b : OrderBook) (hWF : WF b) :
    compact_orders b (List.replicate 10 false) (List.replicate 10 false) = b := by
  unfold compact_orders
  rw [compactSide_id b.buy_orders b.buy_count _ hWF.buy_len hWF.buy_le
      (fun i hi => getD_replicate _ _ _ _ (lt_of_lt_of_le hi hWF.buy_le)) hWF.buy_pos,
    compactSide_id b.sell_orders b.sell_count _ hWF.sell_len hWF.sell_le
      (fun i hi => getD_replicate _ _ _ _ (lt_of_lt_of_le hi hWF.sell_le)) hWF.sell_pos]

theorem match_orders_no_cross (b : OrderBook) (ts : Nat) (hWF : WF b)
    (hnc : ∀ i j, i < b.buy_count → j < b.sell_count →
      (b.buy_orders.getD i Order.new).price < (b.sell_orders.getD j Order.new).price) :
    match_orders b ts
      = { trades := List.replicate 5 Trade.new, trade_count := 0, order_book := b } := by
  have ht := match_orders_trades_eq b ts
  have htc := match_orders_tc_eq b ts
  have hob := match_orders_book_eq b ts
  rw [matchScan_no_cross b ts hnc] at ht htc hob
  rw [initMatchState_trades] at ht
  rw [initMatchState_tc] at htc
  rw [initMatchState_book, initMatchState_bf, initMatchState_sf,
    compact_orders_id b hWF] at hob
  rcases hm : match_orders b ts with ⟨t, tc, ob⟩
  rw [hm] at ht htc hob
  simp only at ht htc hob
  rw [ht, htc, hob]

/-! ## Insertion and cancellation: operation-level lemmas -/

theorem if_lt_eq_min (a b : Nat) : (if a < b then a else b) = min a b := by
  by_cases h : a < b
  · rw [if_pos h, Nat.min_eq_left (Nat.le_of_lt h)]
  · rw [if_neg h, Nat.min_eq_right (Nat.le_of_not_lt h)]

theorem add_buy_order_success (b : OrderBook) (o : Order) (h : b.buy_count < 10) :
    b.add_buy_order o
      = ({ b with
          buy_orders := b.buy_orders.set b.buy_count { o with order_id := b.next_order_id },
          buy_count := b.buy_count + 1,
          next_order_id := (b.next_order_id + 1) % U128 }, true) := by
  simp only [OrderBook.add_buy_order]
  rw [if_pos (decide_eq_true h)]

theorem add_buy_order_fail (b : OrderBook) (o : Order) (h : ¬ b.buy_count < 10) :
    b.add_buy_order o = (b, false) := by
  simp only [OrderBook.add_buy_order]
  rw [if_neg (by simp [h])]

theorem add_sell_order_success (b : OrderBook) (o : Order) (h : b.sell_count < 10) :
    b.add_sell_order o
      = ({ b with
          sell_orders := b.sell_orders.set b.sell_count { o with order_id := b.next_order_id },
          sell_count := b.sell_count + 1,
          next_order_id := (b.next_order_id + 1) % U128 }, true) := by
  simp only [OrderBook.add_sell_order]
  rw [if_pos (decide_eq_true h)]

theorem add_sell_order_fail (b : OrderBook) (o : Order) (h : ¬ b.sell_count < 10) :
    b.add_sell_order o = (b, false) := by
  simp only [OrderBook.add_sell_order]
  rw [if_neg (by simp [h])]

theorem submit_counts (b : OrderBook) (o : Order) :
    (b.submit_order o).1.buy_count
        = b.buy_count + (if (b.submit_order o).2 && o.side then 1 else 0) ∧
    (b.submit_order o).1.sell_count
        = b.sell_count + (if (b.submit_order o).2 && !o.side then 1 else 0) := by
  unfold OrderBook.submit_order
  cases hs : o.side
  · simp only [Bool.false_eq_true, if_false]
    by_cases h : b.sell_count < 10
    · rw [add_sell_order_success b o h]
      simp
    · rw [add_sell_order_fail b o h]
      simp
  · simp only [if_true]
    by_cases h : b.buy_count < 10
    · rw [add_buy_order_success b o h]
      simp
    · rw [add_buy_order_fail b o h]
      simp

theorem insertRun_counts (os : List Order) (b : OrderBook) :
    (insertRun b os).1.buy_count = b.buy_count + (insertRun b os).2.1 ∧
    (insertRun b os).1.sell_count = b.sell_count + (insertRun b os).2.2 := by
  have h := foldl_inv
    (fun (st : OrderBook × Nat × Nat) o =>
      ((st.1.submit_order o).1,
       st.2.1 + (if (st.1.submit_order o).2 && o.side then 1 else 0),
       st.2.2 + (if (st.1.submit_order o).2 && !o.side then 1 else 0)))
    (fun st => st.1.buy_count = b.buy_count + st.2.1 ∧ st.1.sell_count = b.sell_count + st.2.2)
    os (b, 0, 0) (by simp)
    (fun st o _ hP => by
      obtain ⟨e1, e2⟩ := hP
      obtain ⟨f1, f2⟩ := submit_counts st.1 o
      constructor
      · show (st.1.submit_order o).1.buy_count
            = b.buy_count + (st.2.1 + (if (st.1.submit_order o).2 && o.side then 1 else 0))
        rw [f1, e1]
        omega
      · show (st.1.submit_order o).1.sell_count
            = b.sell_count + (st.2.2 + (if (st.1.submit_order o).2 && !o.side then 1 else 0))
        rw [f2, e2]
        omega)
  exact h

theorem cancel_order_not_found (b : OrderBook) (oid tid : Nat)
    (hbuy : ∀ i, i < b.buy_count → matchesAt b.buy_orders i oid tid = false)
    (hsell : ∀ i, i < b.sell_count → matchesAt b.sell_orders i oid tid = false) :
    b.cancel_order oid tid = (b, false) := by
  simp only [OrderBook.cancel_order]
  rw [cancelSide_no_match b.buy_orders b.buy_count oid tid hbuy]
  rw [show ((b.buy_orders, b.buy_count, false) : List Order × Nat × Bool).2.2 = false from rfl]
  rw [cancelSide_no_match b.sell_orders b.sell_count oid tid hsell]

theorem cancel_order_buy_found (b : OrderBook) (oid tid i₀ : Nat)
    (hc : b.buy_count ≤ 10) (hi₀ : i₀ < b.buy_count)
    (hm : matchesAt b.buy_orders i₀ oid tid = true)
    (hleast : ∀ j, j < i₀ → matchesAt b.buy_orders j oid tid = false) :
    b.cancel_order oid tid
      = ({ b with
            buy_orders := shiftFrom b.buy_orders i₀,
            buy_count := b.buy_count - 1 }, true) := by
  simp only [OrderBook.cancel_order]
  rw [cancelSide_found b.buy_orders b.buy_count oid tid i₀ hc hi₀ hm hleast]
  rw [show ((shiftFrom b.buy_orders i₀, b.buy_count - 1, true) :
      List Order × Nat × Bool).2.2 = true from rfl]
  rw [cancelSide_already_found b.sell_orders b.sell_count oid tid]

theorem cancel_order_sell_found (b : OrderBook) (oid tid i₀ : Nat)
    (hbuy : ∀ i, i < b.buy_count → matchesAt b.buy_orders i oid tid = false)
    (hc : b.sell_count ≤ 10) (hi₀ : i₀ < b.sell_count)
    (hm : matchesAt b.sell_orders i₀ oid tid = true)
    (hleast : ∀ j, j < i₀ → matchesAt b.sell_orders j oid tid = false) :
    b.cancel_order oid tid
      = ({ b with
            sell_orders := shiftFrom b.sell_orders i₀,
            sell_count := b.sell_count - 1 }, true) := by
  simp only [OrderBook.cancel_order]
  rw [cancelSide_no_match b.buy_orders b.buy_count oid tid hbuy]
  rw [show ((b.buy_orders, b.buy_count, false) : List Order × Nat × Bool).2.2 = false from rfl]
  rw [cancelSide_found b.sell_orders b.sell_count oid tid i₀ hc hi₀ hm hleast]

/-! ## The identity counter across operation sequences -/

theorem cancel_order_next (b : OrderBook) (oid tid : Nat) :
    (b.cancel_order oid tid).1.next_order_id = b.next_order_id := by
  simp only [OrderBook.cancel_order]

theorem applyOp_next (b : OrderBook) (op : Op) :
    (applyOp b op).next_order_id
      = if opAccepted b op then (b.next_order_id + 1) % U128 else b.next_order_id := by
  cases op with
  | submit o =>
    show ((b.submit_order o).1).next_order_id
      = if (b.submit_order o).2 then (b.next_order_id + 1) % U128 else b.next_order_id
    unfold OrderBook.submit_order
    cases hs : o.side
    · by_cases h : b.sell_count < 10
      · rw [add_sell_order_success b o h]
        simp
      · rw [add_sell_order_fail b o h]
        simp
    · by_cases h : b.buy_count < 10
      · rw [add_buy_order_success b o h]
        simp
      · rw [add_buy_order_fail b o h]
        simp
  | cancel oid tid =>
    show (b.cancel_order oid tid).1.next_order_id = if false = true then _ else b.next_order_id
    rw [cancel_order_next]
    rfl
  | runMatch ts =>
    show (match_orders b ts).order_book.next_order_id
      = if false = true then _ else b.next_order_id
    rw [(match_orders_frame b ts).1]
    rfl

theorem opsMaster :
    ∀ (ops : List Op) (b : OrderBook), b.next_order_id + ops.length < U128 →
      (applyOps b ops).next_order_id = b.next_order_id + (assignedIds b ops).length ∧
      (assignedIds b ops).length ≤ ops.length ∧
      (∀ x ∈ assignedIds b ops, b.next_order_id ≤ x) ∧
      List.Pairwise (· < ·) (assignedIds b ops)
  | [], b, _ => ⟨rfl, by simp [assignedIds], by simp [assignedIds], by simp [assignedIds]⟩
  | op :: ops, b, h => by
    have hlen : (op :: ops).length = ops.length + 1 := rfl
    have hnext := applyOp_next b op
    have happly : applyOps b (op :: ops) = applyOps (applyOp b op) ops := by
      unfold applyOps
      rw [List.foldl_cons]
    by_cases hacc : opAccepted b op = true
    · have hmod : (b.next_order_id + 1) % U128 = b.next_order_id + 1 :=
        Nat.mod_eq_of_lt (by rw [hlen] at h; omega)
      have hnext2 : (applyOp b op).next_order_id = b.next_order_id + 1 := by
        rw [hnext, if_pos hacc, hmod]
      have hassigned : assignedIds b (op :: ops)
          = b.next_order_id :: assignedIds (applyOp b op) ops := by
        simp only [assignedIds, hacc, if_true, List.singleton_append]
      obtain ⟨ih1, ih2, ih3, ih4⟩ :=
        opsMaster ops (applyOp b op) (by rw [hnext2]; rw [hlen] at h; omega)
      rw [happly, hassigned]
      refine ⟨?_, ?_, ?_, ?_⟩
      · rw [ih1, hnext2]
        simp [Nat.add_assoc, Nat.add_comm, Nat.add_left_comm]
      · simp only [List.length_cons, hlen]
        omega
      · intro x hx
        rcases List.mem_cons.mp hx with hx | hx
        · omega
        · have := ih3 x hx
          omega
      · rw [List.pairwise_cons]
        refine ⟨?_, ih4⟩
        intro x hx
        have := ih3 x hx
        omega
    · have hacc' : opAccepted b op = false := by
        cases hv : opAccepted b op
        · rfl
        · exact absurd hv hacc
      have hnext2 : (applyOp b op).next_order_id = b.next_order_id := by
        rw [hnext, hacc']
        rfl
      have hassigned : assignedIds b (op :: ops) = assignedIds (applyOp b op) ops := by
        simp only [assignedIds, hacc', Bool.false_eq_true, if_false, List.nil_append]
      obtain ⟨ih1, ih2, ih3, ih4⟩ :=
        opsMaster ops (applyOp b op) (by rw [hnext2]; rw [hlen] at h; omega)
      rw [happly, hassigned]
      refine ⟨by rw [ih1, hnext2], by rw [hlen]; omega, ?_, ih4⟩
      intro x hx
      have := ih3 x hx
      omega

/-! ## The claims -/

set_option maxRecDepth 1000000 in
/-- C1: for a book with exactly one buy order `{price 100, qty 5}` and one
sell order `{price 90, qty 3}`, `match_orders` returns exactly one trade
`{price 90, quantity 3}`; the buy order remains with quantity 2, the sell
order is removed by compaction, and `sell_count` decreases from 1 to 0. -/
theorem conf_C1 :
    (match_orders bookC1 77).trade_count = 1 ∧
    (match_orders bookC1 77).trades.getD 0 Trade.new
      = { buyer_id := 7, seller_id := 8, price := 90, quantity := 3, timestamp := 77 } ∧
    (match_orders bookC1 77).order_book.buy_orders.getD 0 Order.new
      = { order_id := 1, price := 100, quantity := 2, side := true, trader_id := 7,
          timestamp := 0 } ∧
    (match_orders bookC1 77).order_book.buy_count = 1 ∧
    (match_orders bookC1 77).order_book.sell_count = 0 ∧
    bookC1.sell_count = 1 := by
  decide

/-- C2: whenever an iteration of the inner sell scan of `match_orders` emits
a trade, the trade's quantity is the minimum of the buy order's and the
resting sell order's remaining quantities at that moment, its price is the
resting sell order's price, and both orders' remaining quantities are
decremented in place by exactly the traded amount (the additions below show
the u64 subtractions are exact, i.e. they never underflow). -/
theorem conf_C2 (ts bi si : Nat) (s : MatchState) (bo : Order)
    (hlen5 : s.trades.length = 5)
    (hblen : s.book.buy_orders.length = 10) (hbi : bi < 10)
    (hslen : s.book.sell_orders.length = 10) (hsi : si < 10)
    (hemit : (innerStep ts bi (s, bo) si).1.trade_count = s.trade_count + 1) :
    (innerStep ts bi (s, bo) si).1.trades.getD s.trade_count Trade.new
      = { buyer_id := bo.trader_id,
          seller_id := (s.book.sell_orders.getD si Order.new).trader_id,
          price := (s.book.sell_orders.getD si Order.new).price,
          quantity := min bo.quantity (s.book.sell_orders.getD si Order.new).quantity,
          timestamp := ts } ∧
    (innerStep ts bi (s, bo) si).2.quantity
        + min bo.quantity (s.book.sell_orders.getD si Order.new).quantity
      = bo.quantity ∧
    ((innerStep ts bi (s, bo) si).1.book.sell_orders.getD si Order.new).quantity
        + min bo.quantity (s.book.sell_orders.getD si Order.new).quantity
      = (s.book.sell_orders.getD si Order.new).quantity ∧
    (innerStep ts bi (s, bo) si).1.book.buy_orders.getD bi Order.new
      = (innerStep ts bi (s, bo) si).2 ∧
    (innerStep ts bi (s, bo) si).2
      = { bo with
          quantity :=
            bo.quantity
              - min bo.quantity (s.book.sell_orders.getD si Order.new).quantity } := by
  by_cases hg1 : (decide (si < s.book.sell_count) && decide (s.trade_count < 5) &&
      decide (0 < bo.quantity)) = true
  case neg =>
    rw [innerStep_skip1 ts bi si s bo
      (by simp only [Bool.not_eq_true] at hg1; exact hg1)] at hemit
    simp at hemit
  case pos =>
  by_cases hg2 : ((!(s.sell_filled.getD si false) &&
      decide (0 < (s.book.sell_orders.getD si Order.new).quantity)) &&
    decide ((s.book.sell_orders.getD si Order.new).price ≤ bo.price)) = true
  case neg =>
    rw [innerStep_skip2 ts bi si s bo hg1
      (by simp only [Bool.not_eq_true] at hg2; exact hg2)] at hemit
    simp at hemit
  case pos =>
  have htc5 : s.trade_count < 5 := by
    simp only [Bool.and_eq_true, decide_eq_true_eq] at hg1
    exact hg1.1.2
  rw [innerStep_trade ts bi si s bo hg1 hg2]
  refine ⟨?_, ?_, ?_, ?_, ?_⟩
  · show (s.trades.set s.trade_count _).getD s.trade_count Trade.new = _
    rw [getD_set_self _ _ _ _ (by omega), if_lt_eq_min]
  · show bo.quantity - _ + _ = bo.quantity
    rw [if_lt_eq_min]
    exact Nat.sub_add_cancel (Nat.min_le_left _ _)
  · show ((s.book.sell_orders.set si _).getD si Order.new).quantity + _ = _
    rw [getD_set_self _ _ _ _ (by omega), if_lt_eq_min]
    exact Nat.sub_add_cancel (Nat.min_le_right _ _)
  · show (s.book.buy_orders.set bi _).getD bi Order.new = _
    rw [getD_set_self _ _ _ _ (by omega)]
  · show ({ bo with quantity := bo.quantity - _ } : Order) = _
    rw [if_lt_eq_min]

/-- Witness for C2: in the spec's worked-example book, the first inner-scan
iteration emits a trade, and the buy order's quantity is decremented exactly
by the traded minimum. -/
theorem conf_C2_witness :
    (innerStep 77 0 (initMatchState bookC1, bookC1.buy_orders.getD 0 Order.new) 0).1.trade_count
        = (initMatchState bookC1).trade_count + 1 ∧
    (innerStep 77 0 (initMatchState bookC1, bookC1.buy_orders.getD 0 Order.new) 0).2.quantity
        + min (bookC1.buy_orders.getD 0 Order.new).quantity
            ((initMatchState bookC1).book.sell_orders.getD 0 Order.new).quantity
      = (bookC1.buy_orders.getD 0 Order.new).quantity :=
  ⟨by decide,
   (conf_C2 77 0 0 (initMatchState bookC1) (bookC1.buy_orders.getD 0 Order.new)
     (by decide) (by decide) (by decide) (by decide) (by decide) (by decide)).2.1⟩

set_option maxRecDepth 1000000 in
/-- C3: `match_orders` never returns more than 5 trades, for every input
book and timestamp; on a book with six crossing pairs the first call stops
at the cap of 5 and leaves the sixth crossing in the returned book, which a
second call then resolves (and a third call finds nothing left). -/
theorem conf_C3 :
    (∀ (b : OrderBook) (ts : Nat), (match_orders b ts).trade_count ≤ 5) ∧
    (match_orders book6 0).trade_count = 5 ∧
    (match_orders (match_orders book6 0).order_book 0).trade_count = 1 ∧
    (match_orders (match_orders (match_orders book6 0).order_book 0).order_book 0).trade_count
      = 0 := by
  refine ⟨fun b ts => (match_orders_frame b ts).2.2.2, ?_, ?_, ?_⟩ <;> decide

/-- C4: matching a well-formed book whose every active buy price is strictly
below every active sell price (no crossing pair) yields zero trades and the
unchanged book; hence a second call is also a zero-trade no-op. -/
theorem conf_C4 (b : OrderBook) (ts ts2 : Nat) (hWF : WF b)
    (hnc : ∀ i, i < b.buy_count → ∀ j, j < b.sell_count →
      (b.buy_orders.getD i Order.new).price < (b.sell_orders.getD j Order.new).price) :
    (match_orders b ts).trade_count = 0 ∧
    (match_orders b ts).order_book = b ∧
    (match_orders (match_orders b ts).order_book ts2).trade_count = 0 ∧
    (match_orders (match_orders b ts).order_book ts2).order_book
      = (match_orders b ts).order_book := by
  have h := match_orders_no_cross b ts hWF (fun i j hi hj => hnc i hi j hj)
  have h2 := match_orders_no_cross b ts2 hWF (fun i j hi hj => hnc i hi j hj)
  have hob : ({ trades := List.replicate 5 Trade.new,
                trade_count := 0,
                order_book := b } : MatchResult).order_book = b := rfl
  rw [h, hob, h2]
  exact ⟨rfl, rfl, rfl, rfl⟩

/-- Witness for C4: a concrete two-order book whose buy price 80 is below
its sell price 90 is well formed, and matching it yields zero trades and the
unchanged book. -/
theorem conf_C4_witness :
    WF bookNC ∧
    (match_orders bookNC 3).trade_count = 0 ∧
    (match_orders bookNC 3).order_book = bookNC :=
  ⟨⟨by decide, by decide, by decide, by decide, by decide, by decide, by decide⟩,
   (conf_C4 bookNC 3 4
     ⟨by decide, by decide, by decide, by decide, by decide, by decide, by decide⟩
     (by decide)).1,
   (conf_C4 bookNC 3 4
     ⟨by decide, by decide, by decide, by decide, by decide, by decide, by decide⟩
     (by decide)).2.1⟩

theorem matchesAt_false_of_not_true {os : List Order} {i oid tid : Nat}
    (h : ¬ matchesAt os i oid tid = true) : matchesAt os i oid tid = false := by
  cases hv : matchesAt os i oid tid
  · rfl
  · exact absurd hv h

theorem cancel_order_found_true (b : OrderBook) (oid tid : Nat)
    (hbc : b.buy_count ≤ 10) (hsc : b.sell_count ≤ 10)
    (h : (∃ i, i < b.buy_count ∧ matchesAt b.buy_orders i oid tid = true) ∨
         (∃ i, i < b.sell_count ∧ matchesAt b.sell_orders i oid tid = true)) :
    (b.cancel_order oid tid).2 = true := by
  by_cases hbm : ∃ i, i < b.buy_count ∧ matchesAt b.buy_orders i oid tid = true
  · have hspec := Nat.find_spec hbm
    have hleast : ∀ j, j < Nat.find hbm → matchesAt b.buy_orders j oid tid = false := by
      intro j hj
      apply matchesAt_false_of_not_true
      intro hv
      exact Nat.find_min hbm hj ⟨lt_trans hj hspec.1, hv⟩
    rw [cancel_order_buy_found b oid tid (Nat.find hbm) hbc hspec.1 hspec.2 hleast]
  · have hbuy : ∀ i, i < b.buy_count → matchesAt b.buy_orders i oid tid = false := by
      intro i hi
      apply matchesAt_false_of_not_true
      intro hv
      exact hbm ⟨i, hi, hv⟩
    rcases h with h | h
    · obtain ⟨i, hi, hv⟩ := h
      rw [hbuy i hi] at hv
      cases hv
    · have hspec := Nat.find_spec h
      have hleast : ∀ j, j < Nat.find h → matchesAt b.sell_orders j oid tid = false := by
        intro j hj
        apply matchesAt_false_of_not_true
        intro hv
        exact Nat.find_min h hj ⟨lt_trans hj hspec.1, hv⟩
      rw [cancel_order_sell_found b oid tid (Nat.find h) hbuy hsc hspec.1 hspec.2 hleast]

/-- C5: an insertion succeeds exactly when the targeted side's count is
below the capacity of 10; on success the order is stored at index `count`
with a freshly assigned `order_id`, the side's count and `next_order_id`
are incremented and every other slot and the whole opposite side are
untouched; on a full side the book (including `next_order_id`) is returned
unchanged with `false`; and over any sequence of submissions each side's
final count is its initial count plus the number of accepted insertions on
that side. -/
theorem conf_C5 (b : OrderBook) (o : Order) (os : List Order)
    (hblen : b.buy_orders.length = 10) (hslen : b.sell_orders.length = 10)
    (hnext : b.next_order_id + 1 < U128) :
    ((b.add_buy_order o).2 = true ↔ b.buy_count < 10) ∧
    (b.buy_count < 10 →
      (b.add_buy_order o).1.buy_orders.getD b.buy_count Order.new
          = { o with order_id := b.next_order_id } ∧
      (b.add_buy_order o).1.buy_count = b.buy_count + 1 ∧
      (b.add_buy_order o).1.next_order_id = b.next_order_id + 1 ∧
      (∀ j, j ≠ b.buy_count →
        (b.add_buy_order o).1.buy_orders.getD j Order.new
          = b.buy_orders.getD j Order.new) ∧
      (b.add_buy_order o).1.sell_orders = b.sell_orders ∧
      (b.add_buy_order o).1.sell_count = b.sell_count) ∧
    (¬ b.buy_count < 10 → b.add_buy_order o = (b, false)) ∧
    ((b.add_sell_order o).2 = true ↔ b.sell_count < 10) ∧
    (b.sell_count < 10 →
      (b.add_sell_order o).1.sell_orders.getD b.sell_count Order.new
          = { o with order_id := b.next_order_id } ∧
      (b.add_sell_order o).1.sell_count = b.sell_count + 1 ∧
      (b.add_sell_order o).1.next_order_id = b.next_order_id + 1 ∧
      (b.add_sell_order o).1.buy_orders = b.buy_orders ∧
      (b.add_sell_order o).1.buy_count = b.buy_count) ∧
    (¬ b.sell_count < 10 → b.add_sell_order o = (b, false)) ∧
    (insertRun b os).1.buy_count = b.buy_count + (insertRun b os).2.1 ∧
    (insertRun b os).1.sell_count = b.sell_count + (insertRun b os).2.2 := by
  have hmod : (b.next_order_id + 1) % U128 = b.next_order_id + 1 := Nat.mod_eq_of_lt hnext
  refine ⟨?_, ?_, ?_, ?_, ?_, ?_, (insertRun_counts os b).1, (insertRun_counts os b).2⟩
  · constructor
    · intro hs
      by_contra hfull
      rw [add_buy_order_fail b o hfull] at hs
      cases hs
    · intro hlt
      rw [add_buy_order_success b o hlt]
  · intro hlt
    rw [add_buy_order_success b o hlt]
    refine ⟨?_, rfl, hmod, ?_, rfl, rfl⟩
    · show (b.buy_orders.set b.buy_count _).getD b.buy_count Order.new = _
      rw [getD_set_self _ _ _ _ (by omega)]
    · intro j hj
      show (b.buy_orders.set b.buy_count _).getD j Order.new = _
      rw [getD_set_ne _ _ _ _ _ (fun hc => hj hc.symm)]
  · exact add_buy_order_fail b o
  · constructor
    · intro hs
      by_contra hfull
      rw [add_sell_order_fail b o hfull] at hs
      cases hs
    · intro hlt
      rw [add_sell_order_success b o hlt]
  · intro hlt
    rw [add_sell_order_success b o hlt]
    refine ⟨?_, rfl, hmod, rfl, rfl⟩
    show (b.sell_orders.set b.sell_count _).getD b.sell_count Order.new = _
    rw [getD_set_self _ _ _ _ (by omega)]
  · exact add_sell_order_fail b o

/-- Witness for C5: inserting one sell order into the empty book succeeds,
and a two-element submission run from the empty book accepts both orders. -/
theorem conf_C5_witness :
    (OrderBook.new.buy_orders.length = 10 ∧ OrderBook.new.next_order_id + 1 < U128) ∧
    ((OrderBook.new.add_buy_order (mkOrder 100 5 true 7)).2 = true ↔
      OrderBook.new.buy_count < 10) ∧
    (insertRun OrderBook.new [mkOrder 100 5 true 7, mkOrder 90 3 false 8]).1.buy_count
      = OrderBook.new.buy_count
        + (insertRun OrderBook.new [mkOrder 100 5 true 7, mkOrder 90 3 false 8]).2.1 :=
  ⟨⟨by decide, by decide⟩,
   (conf_C5 OrderBook.new (mkOrder 100 5 true 7)
     [mkOrder 100 5 true 7, mkOrder 90 3 false 8]
     (by decide) (by decide) (by decide)).1,
   (conf_C5 OrderBook.new (mkOrder 100 5 true 7)
     [mkOrder 100 5 true 7, mkOrder 90 3 false 8]
     (by decide) (by decide) (by decide)).2.2.2.2.2.2.1⟩

/-- C6: cancellation removes a slot exactly when some active slot on either
side stores both the given `order_id` and the given `trader_id`; when nothing
matches (including an existing `order_id` held by a different trader) the
book is returned unchanged with `false`; when the least matching buy (resp.
sell) slot is `i₀`, only that side loses exactly one slot: its count drops
by one, the entries after `i₀` shift one position left, the entries before
`i₀` and the entire other side are untouched, and the call returns `true`. -/
theorem conf_C6 (b : OrderBook) (oid tid : Nat) (hWF : WF b) :
    ((b.cancel_order oid tid).2 = true ↔
      (∃ i, i < b.buy_count ∧ matchesAt b.buy_orders i oid tid = true) ∨
      (∃ i, i < b.sell_count ∧ matchesAt b.sell_orders i oid tid = true)) ∧
    ((∀ i, i < b.buy_count → matchesAt b.buy_orders i oid tid = false) →
     (∀ i, i < b.sell_count → matchesAt b.sell_orders i oid tid = false) →
      b.cancel_order oid tid = (b, false)) ∧
    (∀ i₀, i₀ < b.buy_count → matchesAt b.buy_orders i₀ oid tid = true →
      (∀ j, j < i₀ → matchesAt b.buy_orders j oid tid = false) →
      (b.cancel_order oid tid).2 = true ∧
      (b.cancel_order oid tid).1.buy_count = b.buy_count - 1 ∧
      (b.cancel_order oid tid).1.sell_orders = b.sell_orders ∧
      (b.cancel_order oid tid).1.sell_count = b.sell_count ∧
      (b.cancel_order oid tid).1.next_order_id = b.next_order_id ∧
      (∀ j, j < i₀ →
        (b.cancel_order oid tid).1.buy_orders.getD j Order.new
          = b.buy_orders.getD j Order.new) ∧
      (∀ j, i₀ ≤ j → j < 9 →
        (b.cancel_order oid tid).1.buy_orders.getD j Order.new
          = b.buy_orders.getD (j + 1) Order.new)) ∧
    (∀ i₀, (∀ i, i < b.buy_count → matchesAt b.buy_orders i oid tid = false) →
      i₀ < b.sell_count → matchesAt b.sell_orders i₀ oid tid = true →
      (∀ j, j < i₀ → matchesAt b.sell_orders j oid tid = false) →
      (b.cancel_order oid tid).2 = true ∧
      (b.cancel_order oid tid).1.sell_count = b.sell_count - 1 ∧
      (b.cancel_order oid tid).1.buy_orders = b.buy_orders ∧
      (b.cancel_order oid tid).1.buy_count = b.buy_count ∧
      (b.cancel_order oid tid).1.next_order_id = b.next_order_id ∧
      (∀ j, j < i₀ →
        (b.cancel_order oid tid).1.sell_orders.getD j Order.new
          = b.sell_orders.getD j Order.new) ∧
      (∀ j, i₀ ≤ j → j < 9 →
        (b.cancel_order oid tid).1.sell_orders.getD j Order.new
          = b.sell_orders.getD (j + 1) Order.new)) := by
  refine ⟨⟨?_, ?_⟩, ?_, ?_, ?_⟩
  · intro hfound
    by_contra hno
    have hb : ∀ i, i < b.buy_count → matchesAt b.buy_orders i oid tid = false := by
      intro i hi
      apply matchesAt_false_of_not_true
      intro hv
      exact hno (Or.inl ⟨i, hi, hv⟩)
    have hs : ∀ i, i < b.sell_count → matchesAt b.sell_orders i oid tid = false := by
      intro i hi
      apply matchesAt_false_of_not_true
      intro hv
      exact hno (Or.inr ⟨i, hi, hv⟩)
    rw [cancel_order_not_found b oid tid hb hs] at hfound
    cases hfound
  · exact cancel_order_found_true b oid tid hWF.buy_le hWF.sell_le
  · exact cancel_order_not_found b oid tid
  · intro i₀ hi₀ hm hleast
    rw [cancel_order_buy_found b oid tid i₀ hWF.buy_le hi₀ hm hleast]
    have hi9 : i₀ ≤ 9 := by have := hWF.buy_le; omega
    refine ⟨rfl, rfl, rfl, rfl, rfl, ?_, ?_⟩
    · intro j hj
      show (shiftFrom b.buy_orders i₀).getD j Order.new = _
      exact shiftFrom_lt b.buy_orders i₀ j hi9 (by rw [hWF.buy_len]; omega) hj
    · intro j hj1 hj2
      show (shiftFrom b.buy_orders i₀).getD j Order.new = _
      exact shiftFrom_mid b.buy_orders i₀ j hi9 (by rw [hWF.buy_len]; omega) hj1 hj2
  · intro i₀ hbuy hi₀ hm hleast
    rw [cancel_order_sell_found b oid tid i₀ hbuy hWF.sell_le hi₀ hm hleast]
    have hi9 : i₀ ≤ 9 := by have := hWF.sell_le; omega
    refine ⟨rfl, rfl, rfl, rfl, rfl, ?_, ?_⟩
    · intro j hj
      show (shiftFrom b.sell_orders i₀).getD j Order.new = _
      exact shiftFrom_lt b.sell_orders i₀ j hi9 (by rw [hWF.sell_len]; omega) hj
    · intro j hj1 hj2
      show (shiftFrom b.sell_orders i₀).getD j Order.new = _
      exact shiftFrom_mid b.sell_orders i₀ j hi9 (by rw [hWF.sell_len]; omega) hj1 hj2

/-- Witness for C6: in the six-pair book, cancelling `(order_id 3,
trader 2)` — a real buy order of that trader — reports found exactly
because a matching active buy slot exists. -/
theorem conf_C6_witness :
    WF book6 ∧
    ((book6.cancel_order 3 2).2 = true ↔
      (∃ i, i < book6.buy_count ∧ matchesAt book6.buy_orders i 3 2 = true) ∨
      (∃ i, i < book6.sell_count ∧ matchesAt book6.sell_orders i 3 2 = true)) :=
  ⟨⟨by decide, by decide, by decide, by decide, by decide, by decide, by decide⟩,
   (conf_C6 book6 3 2
     ⟨by decide, by decide, by decide, by decide, by decide, by decide, by decide⟩).1⟩

/-- C7: over every operation sequence from the freshly initialized book
(shorter than the `u128` range, so the counter cannot wrap),
`next_order_id` starts at 1, grows by exactly one at each accepted
submission and never decreases across any prefix; every assigned
`order_id` is taken from the counter at insertion (the caller-supplied
`order_id` is discarded), and the assigned ids are strictly increasing over
the book's lifetime and never reused, across intervening cancellations and
matches. -/
theorem conf_C7 (ops : List Op) (h : 1 + ops.length < U128) :
    (applyOps OrderBook.new ops).next_order_id
        = 1 + (assignedIds OrderBook.new ops).length ∧
    List.Pairwise (· < ·) (assignedIds OrderBook.new ops) ∧
    (assignedIds OrderBook.new ops).Nodup ∧
    (∀ l₁ l₂, ops = l₁ ++ l₂ →
      (applyOps OrderBook.new l₁).next_order_id
        ≤ (applyOps OrderBook.new ops).next_order_id) ∧
    (∀ l₁ op l₂, ops = l₁ ++ op :: l₂ →
      opAccepted (applyOps OrderBook.new l₁) op = true →
      (applyOps OrderBook.new (l₁ ++ [op])).next_order_id
        = (applyOps OrderBook.new l₁).next_order_id + 1) ∧
    (∀ (b : OrderBook) (o : Order) (x : Nat),
      OrderBook.submit_order b { o with order_id := x } = b.submit_order o) ∧
    (∀ (b : OrderBook) (o : Order), b.buy_orders.length = 10 →
      o.side = true → b.buy_count < 10 →
      ((b.submit_order o).1.buy_orders.getD b.buy_count Order.new).order_id
        = b.next_order_id) ∧
    (∀ (b : OrderBook) (o : Order), b.sell_orders.length = 10 →
      o.side = false → b.sell_count < 10 →
      ((b.submit_order o).1.sell_orders.getD b.sell_count Order.new).order_id
        = b.next_order_id) := by
  obtain ⟨m1, m2, m3, m4⟩ := opsMaster ops OrderBook.new h
  refine ⟨m1, m4, m4.imp (fun hlt => Nat.ne_of_lt hlt), ?_, ?_, ?_, ?_, ?_⟩
  · rintro l₁ l₂ rfl
    have happ : applyOps OrderBook.new (l₁ ++ l₂)
        = applyOps (applyOps OrderBook.new l₁) l₂ := by
      unfold applyOps
      rw [List.foldl_append]
    have hnew : OrderBook.new.next_order_id = 1 := rfl
    obtain ⟨a1, a2, _, _⟩ := opsMaster l₁ OrderBook.new
      (by rw [hnew]; simp only [List.length_append] at h; omega)
    obtain ⟨b1, _, _, _⟩ := opsMaster l₂ (applyOps OrderBook.new l₁)
      (by rw [a1, hnew]; simp only [List.length_append] at h; omega)
    rw [happ, b1]
    omega
  · rintro l₁ op l₂ rfl hacc
    have happ : applyOps OrderBook.new (l₁ ++ [op])
        = applyOp (applyOps OrderBook.new l₁) op := by
      unfold applyOps
      rw [List.foldl_append, List.foldl_cons, List.foldl_nil]
    have hnew : OrderBook.new.next_order_id = 1 := rfl
    obtain ⟨a1, a2, _, _⟩ := opsMaster l₁ OrderBook.new
      (by rw [hnew]; simp only [List.length_append, List.length_cons] at h; omega)
    rw [hnew] at a1
    rw [happ, applyOp_next _ op, if_pos hacc, Nat.mod_eq_of_lt]
    simp only [List.length_append, List.length_cons] at h
    omega
  · intro b o x
    have hside : ({ o with order_id := x } : Order).side = o.side := rfl
    unfold OrderBook.submit_order
    rw [hside]
    cases hs : o.side
    · simp only [Bool.false_eq_true, if_false]
      by_cases hc : b.sell_count < 10
      · rw [add_sell_order_success _ _ hc, add_sell_order_success _ _ hc]
        simp [hs]
      · rw [add_sell_order_fail _ _ hc, add_sell_order_fail _ _ hc]
    · simp only [if_true]
      by_cases hc : b.buy_count < 10
      · rw [add_buy_order_success _ _ hc, add_buy_order_success _ _ hc]
        simp [hs]
      · rw [add_buy_order_fail _ _ hc, add_buy_order_fail _ _ hc]
  · intro b o hlen hside hc
    have hsub : b.submit_order o = b.add_buy_order o := by
      unfold OrderBook.submit_order
      rw [hside]
      simp
    rw [hsub, add_buy_order_success b o hc]
    show ((b.buy_orders.set b.buy_count _).getD b.buy_count Order.new).order_id = _
    rw [getD_set_self _ _ _ _ (by omega)]
  · intro b o hlen hside hc
    have hsub : b.submit_order o = b.add_sell_order o := by
      unfold OrderBook.submit_order
      rw [hside]
      simp
    rw [hsub, add_sell_order_success b o hc]
    show ((b.sell_orders.set b.sell_count _).getD b.sell_count Order.new).order_id = _
    rw [getD_set_self _ _ _ _ (by omega)]

/-- Witness for C7: a three-operation run (submit buy, cancel it, submit
sell) is far below the `u128` bound and its two assigned ids are strictly
increasing. -/
theorem conf_C7_witness :
    1 + ([Op.submit (mkOrder 100 5 true 7), Op.cancel 1 7,
          Op.submit (mkOrder 90 3 false 8)] : List Op).length < U128 ∧
    List.Pairwise (· < ·)
      (assignedIds OrderBook.new
        [Op.submit (mkOrder 100 5 true 7), Op.cancel 1 7,
         Op.submit (mkOrder 90 3 false 8)]) :=
  ⟨by decide,
   (conf_C7 [Op.submit (mkOrder 100 5 true 7), Op.cancel 1 7,
     Op.submit (mkOrder 90 3 false 8)] (by decide)).2.1⟩

theorem compact_keep_member (os : List Order) (c : Nat) (filled : List Bool)
    (o : Order) (ho : o ∈ keptOrders os c filled) :
    ∃ i, i < c ∧ i < 10 ∧ o = os.getD i Order.new ∧ 0 < o.quantity := by
  unfold keptOrders at ho
  obtain ⟨i, hi, rfl⟩ := List.mem_map.mp ho
  have hmem := List.mem_filter.mp hi
  have hk := hmem.2
  unfold keepIdx at hk
  simp only [Bool.and_eq_true, decide_eq_true_eq] at hk
  exact ⟨i, hk.1.1, List.mem_range.mp hmem.1, rfl, hk.2⟩

/-- C8: a compaction pass keeps exactly the slots below the side's count
whose remaining quantity is positive (under the calling invariant that a
`filled` flag is only set on a slot whose quantity has reached zero), writes
them contiguously from index 0 in their original relative order, and sets
the count to the number of kept entries; likewise, a cancellation that
removes the least matching slot `i₀` leaves the surviving active orders of
that side equal to the original active list with position `i₀` erased — a
sublist, so their relative order is preserved. -/
theorem conf_C8 (os : List Order) (c : Nat) (filled : List Bool)
    (hlen : os.length = 10) (hc : c ≤ 10)
    (hfill : ∀ i, i < c → filled.getD i false = true →
      (os.getD i Order.new).quantity = 0) :
    ((compactSide os c filled).2
        = ((os.take c).filter (fun o => decide (0 < o.quantity))).length ∧
      (compactSide os c filled).1.take (compactSide os c filled).2
        = (os.take c).filter (fun o => decide (0 < o.quantity))) ∧
    (∀ (b : OrderBook) (oid tid i₀ : Nat), WF b →
      i₀ < b.buy_count → matchesAt b.buy_orders i₀ oid tid = true →
      (∀ j, j < i₀ → matchesAt b.buy_orders j oid tid = false) →
      (b.cancel_order oid tid).1.buy_orders.take (b.buy_count - 1)
          = (b.buy_orders.take b.buy_count).eraseIdx i₀ ∧
      List.Sublist ((b.cancel_order oid tid).1.buy_orders.take (b.buy_count - 1))
        (b.buy_orders.take b.buy_count)) ∧
    (∀ (b : OrderBook) (oid tid i₀ : Nat), WF b →
      (∀ i, i < b.buy_count → matchesAt b.buy_orders i oid tid = false) →
      i₀ < b.sell_count → matchesAt b.sell_orders i₀ oid tid = true →
      (∀ j, j < i₀ → matchesAt b.sell_orders j oid tid = false) →
      (b.cancel_order oid tid).1.sell_orders.take (b.sell_count - 1)
          = (b.sell_orders.take b.sell_count).eraseIdx i₀ ∧
      List.Sublist ((b.cancel_order oid tid).1.sell_orders.take (b.sell_count - 1))
        (b.sell_orders.take b.sell_count)) := by
  refine ⟨⟨?_, ?_⟩, ?_, ?_⟩
  · rw [compactSide_count, keptOrders_eq_filter os c filled hlen hc hfill]
  · rw [compactSide_take, keptOrders_eq_filter os c filled hlen hc hfill]
  · intro b oid tid i₀ hWF hi₀ hm hleast
    have herase := cancelSide_active_erase b.buy_orders b.buy_count oid tid i₀
      hWF.buy_len hWF.buy_le hi₀ hm hleast
    rw [cancelSide_found b.buy_orders b.buy_count oid tid i₀ hWF.buy_le hi₀ hm hleast]
      at herase
    have hres : (b.cancel_order oid tid).1.buy_orders = shiftFrom b.buy_orders i₀ := by
      rw [cancel_order_buy_found b oid tid i₀ hWF.buy_le hi₀ hm hleast]
    rw [hres]
    exact ⟨herase, herase ▸ List.eraseIdx_sublist _ i₀⟩
  · intro b oid tid i₀ hWF hbuy hi₀ hm hleast
    have herase := cancelSide_active_erase b.sell_orders b.sell_count oid tid i₀
      hWF.sell_len hWF.sell_le hi₀ hm hleast
    rw [cancelSide_found b.sell_orders b.sell_count oid tid i₀ hWF.sell_le hi₀ hm hleast]
      at herase
    have hres : (b.cancel_order oid tid).1.sell_orders = shiftFrom b.sell_orders i₀ := by
      rw [cancel_order_sell_found b oid tid i₀ hbuy hWF.sell_le hi₀ hm hleast]
    rw [hres]
    exact ⟨herase, herase ▸ List.eraseIdx_sublist _ i₀⟩

/-- Witness for C8: compacting the six active unit-quantity buy slots of the
six-pair book with no filled flags keeps all six in order. -/
theorem conf_C8_witness :
    (book6.buy_orders.length = 10 ∧ (6 : Nat) ≤ 10) ∧
    (compactSide book6.buy_orders 6 (List.replicate 10 false)).2
      = ((book6.buy_orders.take 6).filter (fun o => decide (0 < o.quantity))).length :=
  ⟨⟨by decide, by decide⟩,
   (conf_C8 book6.buy_orders 6 (List.replicate 10 false)
     (by decide) (by decide) (by decide)).1.1⟩

/-- C9: every scan over a fixed-capacity order array — each side's scan in
`cancel_order`, the outer buy scan and the inner sell scan of
`match_orders`, and each compaction pass — executes exactly 10 loop
iterations for every possible input, as witnessed by instrumented versions
of the scans that count iterations and compute the same result. -/
theorem conf_C9 :
    (∀ (os : List Order) (c oid tid : Nat) (f : Bool),
      (cancelSideCounted os c oid tid f).2 = 10 ∧
      (cancelSideCounted os c oid tid f).1 = cancelSide os c oid tid f) ∧
    (∀ (ts : Nat) (s : MatchState),
      (buyScanCounted ts s).2 = 10 ∧
      (buyScanCounted ts s).1 = (List.range 10).foldl (outerStep ts) s) ∧
    (∀ (ts bi : Nat) (st : MatchState × Order),
      (sellScanCounted ts bi st).2 = 10 ∧
      (sellScanCounted ts bi st).1 = (List.range 10).foldl (innerStep ts bi) st) ∧
    (∀ (os : List Order) (c : Nat) (filled : List Bool),
      (compactSideCounted os c filled).2 = 10 ∧
      (compactSideCounted os c filled).1 = compactSide os c filled) := by
  refine ⟨fun os c oid tid f => ?_, fun ts s => ?_, fun ts bi st => ?_,
    fun os c filled => ?_⟩
  · constructor
    · simp only [cancelSideCounted]
      rw [foldl_count (cancelStep oid tid) (List.range 10) (os, c, f) 0]
      show 0 + (List.range 10).length = 10
      rw [Nat.zero_add, List.length_range]
    · simp only [cancelSideCounted, cancelSide]
      rw [foldl_count (cancelStep oid tid) (List.range 10) (os, c, f) 0]
  · constructor
    · simp only [buyScanCounted]
      rw [foldl_count (outerStep ts) (List.range 10) s 0]
      show 0 + (List.range 10).length = 10
      rw [Nat.zero_add, List.length_range]
    · simp only [buyScanCounted]
      rw [foldl_count (outerStep ts) (List.range 10) s 0]
  · constructor
    · simp only [sellScanCounted]
      rw [foldl_count (innerStep ts bi) (List.range 10) st 0]
      show 0 + (List.range 10).length = 10
      rw [Nat.zero_add, List.length_range]
    · simp only [sellScanCounted]
      rw [foldl_count (innerStep ts bi) (List.range 10) st 0]
  · constructor
    · simp only [compactSideCounted]
      rw [foldl_count (compactStep c filled) (List.range 10) (os, 0) 0]
      show 0 + (List.range 10).length = 10
      rw [Nat.zero_add, List.length_range]
    · simp only [compactSideCounted, compactSide]
      rw [foldl_count (compactStep c filled) (List.range 10) (os, 0) 0]

set_option maxHeartbeats 800000 in
/-- C10: matching leaves `next_order_id` unchanged and never grows either
side: the returned counts are bounded by the input counts, and every active
order of the returned book is an input active order, unchanged except for a
possibly smaller remaining quantity. -/
theorem conf_C10 (b : OrderBook) (ts : Nat)
    (h1 : b.buy_orders.length = 10) (h2 : b.sell_orders.length = 10) :
    (match_orders b ts).order_book.next_order_id = b.next_order_id ∧
    (match_orders b ts).order_book.buy_count ≤ b.buy_count ∧
    (match_orders b ts).order_book.sell_count ≤ b.sell_count ∧
    (∀ o ∈ (match_orders b ts).order_book.buy_orders.take
        (match_orders b ts).order_book.buy_count,
      ∃ o₀ ∈ b.buy_orders.take b.buy_count, qLE o o₀) ∧
    (∀ o ∈ (match_orders b ts).order_book.sell_orders.take
        (match_orders b ts).order_book.sell_count,
      ∃ o₀ ∈ b.sell_orders.take b.sell_count, qLE o o₀) := by
  obtain ⟨f1, f2, f3, _⟩ := match_orders_frame b ts
  obtain ⟨L1, L2, dec⟩ := matchScan_decr b ts h1 h2
  refine ⟨f1, f2, f3, ?_, ?_⟩
  · intro o ho
    rw [match_orders_book_eq, compact_orders_buys, compact_orders_buy_count,
      compactSide_take] at ho
    obtain ⟨i, hic, hi10, hoe, hq⟩ := compact_keep_member _ _ _ o ho
    have hq2 := forall₂_qLE_getD dec.2.2.2.1 i (by rw [L1]; exact hi10)
    rw [hoe]
    refine ⟨b.buy_orders.getD i Order.new, ?_, hq2⟩
    have hibc : i < b.buy_count := by rw [← dec.1]; exact hic
    have hmem : b.buy_orders.getD i Order.new
        = (b.buy_orders.take b.buy_count).getD i Order.new :=
      (getD_take_lt _ _ _ _ hibc).symm
    rw [hmem, getD_eq_getElem _ _ _ (by rw [List.length_take]; omega)]
    exact List.getElem_mem _
  · intro o ho
    rw [match_orders_book_eq, compact_orders_sells, compact_orders_sell_count,
      compactSide_take] at ho
    obtain ⟨i, hic, hi10, hoe, hq⟩ := compact_keep_member _ _ _ o ho
    have hq2 := forall₂_qLE_getD dec.2.2.2.2 i (by rw [L2]; exact hi10)
    rw [hoe]
    refine ⟨b.sell_orders.getD i Order.new, ?_, hq2⟩
    have hibc : i < b.sell_count := by rw [← dec.2.1]; exact hic
    have hmem : b.sell_orders.getD i Order.new
        = (b.sell_orders.take b.sell_count).getD i Order.new :=
      (getD_take_lt _ _ _ _ hibc).symm
    rw [hmem, getD_eq_getElem _ _ _ (by rw [List.length_take]; omega)]
    exact List.getElem_mem _

/-- Witness for C10: on the spec's worked-example book, matching preserves
`next_order_id` and does not grow the sell side. -/
theorem conf_C10_witness :
    (bookC1.buy_orders.length = 10 ∧ bookC1.sell_orders.length = 10) ∧
    (match_orders bookC1 77).order_book.next_order_id = bookC1.next_order_id ∧
    (match_orders bookC1 77).order_book.sell_count ≤ bookC1.sell_count :=
  ⟨⟨by decide, by decide⟩,
   (conf_C10 bookC1 77 (by decide) (by decide)).1,
   (conf_C10 bookC1 77 (by decide) (by decide)).2.2.1⟩
